import Mathlib

/-!
Verification of the request-lifecycle orchestration of the image converter
backend (controllers for the convert, resize and compress endpoints).

The JavaScript controllers are embedded shallowly:

* JS numbers are rationals plus the non-finite values (`JSNum`); JS truthiness
  and the NaN-poisoned comparisons are modelled explicitly.
* The staging area is a list of the staged paths of a single request;
  `fs.unlink` removes a path or reports `ENOENT`.
* The asynchronous stream/response events of a request are driven by an
  explicit environment: a metadata oracle for `sharp(path).metadata()` and a
  terminal-event descriptor (stream finished, codec error, client disconnect,
  archive failure).  Each registered event handler is translated from the
  source and applied on the event it is registered for.
-/

/-! ## JS value model -/

/-- A JavaScript number: a finite value (kept exact as a rational) or one of
the non-finite values `NaN`, `Infinity`, `-Infinity`. -/
inductive JSNum where
  | nan
  | posInf
  | negInf
  | fin (q : ℚ)
deriving Repr, DecidableEq

/-- JS truthiness of a number: `NaN` and `0` are falsy, everything else
(including the infinities) is truthy. -/
def JSNum.truthy : JSNum → Bool
  | .nan => false
  | .posInf => true
  | .negInf => true
  | .fin q => decide (q ≠ 0)

/-- `Number.isInteger(v)`: true only for finite values with zero fractional
part. -/
def JSNum.isIntegerB : JSNum → Bool
  | .fin q => decide (q.den = 1)
  | _ => false

/-- JS `<=` on numbers: any comparison involving `NaN` is false. -/
def JSNum.leB : JSNum → JSNum → Bool
  | .nan, _ => false
  | _, .nan => false
  | .fin p, .fin q => decide (p ≤ q)
  | .fin _, .posInf => true
  | .fin _, .negInf => false
  | .posInf, .posInf => true
  | .posInf, .fin _ => false
  | .posInf, .negInf => false
  | .negInf, _ => true

/-- JS `>` on numbers: any comparison involving `NaN` is false. -/
def JSNum.gtB : JSNum → JSNum → Bool
  | .nan, _ => false
  | _, .nan => false
  | .fin p, .fin q => decide (q < p)
  | .fin _, .posInf => false
  | .fin _, .negInf => true
  | .posInf, .posInf => false
  | .posInf, _ => true
  | .negInf, _ => false

/-- `Math.round(q)` for a finite JS number: round half up,
`Math.round(x) = floor(x + 0.5)`. -/
def mathRound (q : ℚ) : ℤ := ⌊q + 1/2⌋

/-- A value read from a request body field: absent (`undefined`), `null`, a
string, or a number. -/
inductive JSValue where
  | undef
  | null
  | str (s : String)
  | num (n : JSNum)
deriving Repr, DecidableEq

/-! ### Structural string helpers

The core `String.trim`, `String.toLower`, `String.startsWith` and
`String.splitOn` are built on `Substring` primitives the kernel cannot
evaluate, so the embedding uses character-list versions of the exact same
operations. -/

/-- `s.trim()`: strip leading and trailing whitespace. -/
def jsTrim (s : String) : String :=
  String.mk (((s.data.dropWhile Char.isWhitespace).reverse.dropWhile
    Char.isWhitespace).reverse)

/-- `s.toLowerCase()` on the ASCII range the controllers compare against. -/
def jsLower (s : String) : String :=
  String.mk (s.data.map Char.toLower)

/-- The characters of the final path segment (after the last `/`). -/
def afterLastSlash (cs : List Char) : List Char :=
  (cs.reverse.takeWhile (fun c => c ≠ '/')).reverse

/-- `path.extname(name).slice(1)`: the extension of the last path segment
without its dot; empty when the segment has no dot, when the only dot leads
the segment (`.bashrc`), or when the dot is last (`file.`). -/
def extnameNoDot (name : String) : String :=
  let base := afterLastSlash name.data
  if base.contains '.' = false then ""
  else
    let ext := (base.reverse.takeWhile (fun c => c ≠ '.')).reverse
    if base.length - ext.length - 1 = 0 then "" else String.mk ext

/-! ### `Number(s)` string coercion

The embedding parses the decimal literals (optionally signed, with an
optional fractional part) and the `Infinity` forms; the remaining numeric
syntaxes of JS (exponent, hex, octal, binary) map to `NaN` here — none of
the controllers' validation outcomes proved below depend on those forms. -/

/-- Numeric value of a list of decimal digits. -/
def digitsVal (cs : List Char) : ℕ :=
  cs.foldl (fun a c => a * 10 + (c.toNat - '0'.toNat)) 0

/-- Parse an unsigned decimal literal `digits[.digits]` (at least one digit
overall) into numerator and power-of-ten denominator. -/
def parseDecimalParts (cs : List Char) : Option (ℕ × ℕ) :=
  let ip := cs.takeWhile (fun c => c ≠ '.')
  let rest := cs.dropWhile (fun c => c ≠ '.')
  match rest with
  | [] =>
    if ip ≠ [] ∧ ip.all Char.isDigit then some (digitsVal ip, 1) else none
  | _ :: fp =>
    if (ip ≠ [] ∨ fp ≠ []) ∧ ip.all Char.isDigit ∧ fp.all Char.isDigit ∧
        fp.contains '.' = false then
      some (digitsVal (ip ++ fp), 10 ^ fp.length)
    else none

/-- JS `Number(s)` on a string: trimmed empty string is `0`, `Infinity`
forms, otherwise an optionally signed decimal literal, else `NaN`. -/
def jsNumberOfString (s : String) : JSNum :=
  let t := jsTrim s
  if t = "" then .fin 0
  else if t = "Infinity" ∨ t = "+Infinity" then .posInf
  else if t = "-Infinity" then .negInf
  else
    match t.data with
    | '+' :: rest => (parseDecimalParts rest).elim .nan
        (fun p => .fin (mkRat p.1 p.2))
    | '-' :: rest => (parseDecimalParts rest).elim .nan
        (fun p => .fin (mkRat (-(p.1 : ℤ)) p.2))
    | rest => (parseDecimalParts rest).elim .nan
        (fun p => .fin (mkRat p.1 p.2))

/-- JS `Number(v)` coercion of a body-field value. -/
def toNumber : JSValue → JSNum
  | .undef => .nan
  | .null => .fin 0
  | .str s => jsNumberOfString s
  | .num n => n

deriving instance DecidableEq for Except

/-! ## Temp file store

The staging area of one request, as the list of its staged paths still on
disk.  `fs.unlink` removes a path or fails with `ENOENT` when it does not
exist (no other fault kind is modelled: the cleanup claims are about the
lifecycle logic, not about disk faults). -/

/-- Error code of a failed `fs.unlink`. -/
inductive FsErr where
  | enoent
deriving Repr, DecidableEq

/-- `fs.unlink(p)`: remove `p`, or report `ENOENT` when absent. -/
def unlink (fs : List String) (p : String) : List String × Option FsErr :=
  if p ∈ fs then (fs.filter (fun q => q ≠ p), none) else (fs, some .enoent)

/-- `safeDelete` of src/controllers/convertController.js (lines 31–43): a
non-string or blank path returns `false` without touching the disk; `ENOENT`
from `unlink` counts as success (`true`); any error is caught, so the
function always returns normally (totality of this definition is the
embedding of "never throws"). -/
def safeDelete (fs : List String) (filePath : String) : List String × Bool :=
  if jsTrim filePath = "" then (fs, false)
  else
    match unlink fs filePath with
    | (fs1, none) => (fs1, true)
    | (fs1, some .enoent) => (fs1, true)

/-- `safeDelete` of src/controllers/resizeController.js (lines 23–33): a
falsy (empty) path returns at once; every `unlink` error is caught (`ENOENT`
silently, others logged), so the call always returns normally. -/
def safeDeleteResize (fs : List String) (filePath : String) : List String :=
  if filePath = "" then fs
  else (unlink fs filePath).1

/-- Delete a list of paths in order with `safeDelete`
(`Promise.allSettled(files.map((f) => safeDelete(f.path)))`). -/
def deleteAll (fs : List String) (paths : List String) : List String :=
  paths.foldl (fun acc p => (safeDelete acc p).1) fs

/-! ## Error model -/

/-- One entry of the per-file skip list
(`errors.push({ file: ..., error: ... })`). -/
structure SkipEntry where
  file : String
  error : String
deriving Repr, DecidableEq

/-- `AppError` of utils/AppError.js: the constructor assigns `message`,
`statusCode`, `status` (`"fail"` for 4xx, else `"error"`), `type` and
`isOperational` — and nothing else.  In particular the class has no `code`
and no `details` property. -/
structure AppError where
  message : String
  statusCode : ℕ
  status : String
  type : Option String
  isOperational : Bool
deriving Repr, DecidableEq

/-- `new AppError(message, statusCode, type)`.  The `status` field tests
whether the decimal form of `statusCode` starts with `"4"`. -/
def AppError.make (message : String) (statusCode : ℕ) (type : Option String) :
    AppError :=
  { message := message
    statusCode := statusCode
    status := if (Nat.repr statusCode).data.head? = some '4' then "fail" else "error"
    type := type
    isOperational := true }

/-- `new AppError(message, statusCode, type, details)` with four arguments:
the class constructor declares only three parameters, so JS silently drops
the fourth — the skip list never reaches the constructed error object. -/
def AppError.make4 (message : String) (statusCode : ℕ) (type : Option String)
    (_details : List SkipEntry) : AppError :=
  AppError.make message statusCode type

/-- Reading `err.code` on an `AppError`: the class never assigns a `code`
property (the constructor stores the kind under `type`), so the property
access yields `undefined`. -/
def AppError.codeProp (_e : AppError) : Option String := none

/-- Reading `err.details` on an `AppError`: the constructor has no fourth
parameter and assigns no `details` property, so the access yields
`undefined`. -/
def AppError.detailsProp (_e : AppError) : Option (List SkipEntry) := none

/-- Error kind of a validation result (the `type` field of the thrown
`AppError`, `none` on success). -/
def errKind {α : Type} : Except AppError α → Option String
  | .error e => e.type
  | .ok _ => none

/-! ## Response channel -/

/-- Serialized JSON error body.  A `none` field is a key that is absent from
the serialized object (`JSON.stringify` drops `undefined` values, and the
conditional spread adds `details` only when truthy). -/
structure ErrorBody where
  error : String
  code : Option String
  details : Option (List SkipEntry)
deriving Repr, DecidableEq

/-- The single outbound HTTP response.  `headersSent` becomes true when the
first body bytes are written (`res.setHeader` alone does not commit). -/
structure Response where
  headersSent : Bool
  statusCode : Option ℕ
  jsonBody : Option ErrorBody
  ended : Bool
deriving Repr, DecidableEq

/-- The response before anything is written. -/
def Response.initial : Response :=
  { headersSent := false, statusCode := none, jsonBody := none, ended := false }

/-- The `pipeline.on("error", ...)` handler shared (up to the message/code
literals) by the three single-file handlers: if headers are not yet sent,
answer 500 with a literal `{ error, code }` body, else just end the
stream. -/
def pipelineErrorResponse (errorMsg errorCode : String) (res : Response) :
    Response :=
  if res.headersSent = false then
    { res with
      statusCode := some 500
      jsonBody := some { error := errorMsg, code := some errorCode, details := none }
      headersSent := true
      ended := true }
  else { res with ended := true }

/-- What the controller catch block caught: an operational `AppError` or any
other (unexpected) exception. -/
inductive CaughtError where
  | app (e : AppError)
  | other
deriving Repr, DecidableEq

/-- The controllers' catch-block response (convertController.js lines
386–404, and identically in the resize and compress controllers): when
headers are not yet sent, an `AppError` answers with its own `statusCode`
and the body `{ error: err.message, code: err.code, ...(err.details &&
{ details: err.details }) }` — where `err.code` and `err.details` are the
(undefined) property reads on `AppError` — and anything else answers
500 `INTERNAL_ERROR`; when headers are already sent the response is only
ended. -/
def errorResponse (err : CaughtError) (res : Response) : Response :=
  if res.headersSent = false then
    match err with
    | .app e =>
      { res with
        statusCode := some e.statusCode
        jsonBody := some
          { error := e.message, code := e.codeProp, details := e.detailsProp }
        headersSent := true
        ended := true }
    | .other =>
      { res with
        statusCode := some 500
        jsonBody := some
          { error := "Internal server error", code := some "INTERNAL_ERROR",
            details := none }
        headersSent := true
        ended := true }
  else { res with ended := true }

/-- The `archive.on("error", ...)` handler's effect on the response: none.
The handler sweeps the staged files and then, with headers still open,
throws inside the asynchronous event callback — that throw rejects the
callback's own promise and never reaches the controller's catch, so the
response object is not touched. -/
def archiveErrorResponse (res : Response) : Response := res

/-! ## Uploaded files and the validation layer -/

/-- One staged upload as multer hands it to the controllers. -/
structure UploadedFile where
  originalname : String
  path : String
  mimetype : Option String
deriving Repr, DecidableEq

/-- Output formats accepted by `validateFormat`
(`SUPPORTED_FORMATS` of convertController.js). -/
def SUPPORTED_FORMATS : List String := ["jpg", "jpeg", "png", "webp", "tiff", "avif"]

/-- Input extensions accepted by `validateFileType`
(`ALLOWED_INPUT_FORMATS` of convertController.js; the resize and compress
controllers declare the identical list under the name `ALLOWED_FORMATS`). -/
def ALLOWED_INPUT_FORMATS : List String :=
  ["jpeg", "jpg", "png", "webp", "gif", "tiff", "avif"]

/-- MIME types accepted by `validateFileType` (`ALLOWED_MIME_TYPES`,
identical in the three controllers). -/
def ALLOWED_MIME_TYPES : List String :=
  ["image/jpeg", "image/png", "image/webp", "image/gif", "image/tiff",
    "image/avif"]

/-- Input dimension ceiling (`MAX_DIMENSION`). -/
def MAX_DIMENSION : ℕ := 20000

/-- Output dimension ceiling of the resize controllers
(`MAX_OUTPUT_DIMENSION`). -/
def MAX_OUTPUT_DIMENSION : ℕ := 10000

/-- `validateFileType(file)` (convertController.js lines 63–77, and
identically in resizeController.js lines 38–52 and the compress controller
lines 39–53): reject unless the lower-cased extension is allowed or the
lower-cased declared MIME type is allowed (`includes(undefined)` is false
when no MIME type is present). -/
def validateFileType (file : UploadedFile) : Except AppError Unit :=
  let ext := jsLower (extnameNoDot file.originalname)
  let mimeOk : Bool := match file.mimetype with
    | some m => decide (jsLower m ∈ ALLOWED_MIME_TYPES)
    | none => false
  if ext ∉ ALLOWED_INPUT_FORMATS ∧ mimeOk = false then
    .error (AppError.make
      ("Invalid file type. Allowed formats: " ++
        String.intercalate ", " ALLOWED_INPUT_FORMATS)
      400 (some "INVALID_FILE_TYPE"))
  else .ok ()

/-- `validateFormat(format)` (convertController.js lines 82–98): absent,
falsy or non-string values fail with `FORMAT_REQUIRED`; otherwise the
lower-cased trimmed value must be a supported output format, and is
returned. -/
def validateFormat (format : JSValue) : Except AppError String :=
  match format with
  | .str s =>
    if s = "" then
      .error (AppError.make "Format is required" 400 (some "FORMAT_REQUIRED"))
    else
      let normalizedFormat := jsTrim (jsLower s)
      if normalizedFormat ∉ SUPPORTED_FORMATS then
        .error (AppError.make
          ("Invalid format. Supported: " ++
            String.intercalate ", " SUPPORTED_FORMATS)
          400 (some "INVALID_FORMAT"))
      else .ok normalizedFormat
  | _ =>
    .error (AppError.make "Format is required" 400 (some "FORMAT_REQUIRED"))

/-- The metadata record produced by `sharp(path).metadata()`. -/
structure Metadata where
  width : Option ℕ
  height : Option ℕ
  format : Option String
deriving Repr, DecidableEq

/-- What `sharp(path).metadata()` did for a given path: returned a record,
or threw (unreadable input). -/
inductive MetaOutcome where
  | ok (m : Metadata)
  | throws
deriving Repr, DecidableEq

/-- JS truthiness of an optional count (`!metadata.width`):
`undefined` and `0` are falsy. -/
def truthyCount : Option ℕ → Bool
  | none => false
  | some n => decide (n ≠ 0)

/-- `validateImageMetadata(filePath)` (convertController.js lines 103–124,
and identically in resizeController.js and the compress controller): a
throwing probe or missing/zero dimensions fail with `INVALID_IMAGE`; a
dimension above `MAX_DIMENSION` fails with `INPUT_DIMENSION_TOO_LARGE`;
otherwise the metadata record is returned. -/
def validateImageMetadata (probe : MetaOutcome) : Except AppError Metadata :=
  match probe with
  | .throws =>
    .error (AppError.make "Failed to read image metadata" 400
      (some "INVALID_IMAGE"))
  | .ok metadata =>
    if truthyCount metadata.width = false ∨ truthyCount metadata.height = false then
      .error (AppError.make "Invalid image file" 400 (some "INVALID_IMAGE"))
    else if (metadata.width.getD 0 > MAX_DIMENSION) ∨
        (metadata.height.getD 0 > MAX_DIMENSION) then
      .error (AppError.make
        ("Input image dimensions exceed maximum (" ++
          Nat.repr MAX_DIMENSION ++ "px)")
        400 (some "INPUT_DIMENSION_TOO_LARGE"))
    else .ok metadata

/-- JS truthiness of an optional number (a dimension that may be `null`). -/
def jsTruthy : Option JSNum → Bool
  | none => false
  | some n => n.truthy

/-- `Number.isInteger(v)` on an optional number. -/
def jsIsInteger : Option JSNum → Bool
  | some n => n.isIntegerB
  | none => false

/-- JS `v <= c` for an optional number against a finite constant
(`null` coerces to `0`). -/
def jsLeOpt (v : Option JSNum) (c : ℚ) : Bool :=
  match v with
  | some n => n.leB (.fin c)
  | none => decide ((0:ℚ) ≤ c)

/-- JS `v > c` for an optional number against a finite constant. -/
def jsGtOpt (v : Option JSNum) (c : ℚ) : Bool :=
  match v with
  | some n => n.gtB (.fin c)
  | none => decide (c < (0:ℚ))

/-- `validateDimensions(width, height)` (resizeController.js lines 57–84):
both falsy fails `DIMENSION_REQUIRED`; a truthy width (height) that is not
an integer or is `<= 0` fails `INVALID_WIDTH` (`INVALID_HEIGHT`); a truthy
width or height above `MAX_OUTPUT_DIMENSION` fails `DIMENSION_TOO_LARGE`;
otherwise the check passes. -/
def validateDimensions (width height : Option JSNum) : Except AppError Unit :=
  if jsTruthy width = false ∧ jsTruthy height = false then
    .error (AppError.make "Width or height must be provided" 400
      (some "DIMENSION_REQUIRED"))
  else if jsTruthy width = true ∧
      (jsIsInteger width = false ∨ jsLeOpt width 0 = true) then
    .error (AppError.make "Invalid width value" 400 (some "INVALID_WIDTH"))
  else if jsTruthy height = true ∧
      (jsIsInteger height = false ∨ jsLeOpt height 0 = true) then
    .error (AppError.make "Invalid height value" 400 (some "INVALID_HEIGHT"))
  else if (jsTruthy width = true ∧ jsGtOpt width (MAX_OUTPUT_DIMENSION : ℚ) = true) ∨
      (jsTruthy height = true ∧ jsGtOpt height (MAX_OUTPUT_DIMENSION : ℚ) = true) then
    .error (AppError.make
      ("Maximum allowed dimension is " ++ Nat.repr MAX_OUTPUT_DIMENSION ++ "px")
      400 (some "DIMENSION_TOO_LARGE"))
  else .ok ()

/-- `validateCompressionPercent(percent)` (compress controller lines 58–86):
`undefined`/`null` fail `PERCENT_REQUIRED`; a `Number(...)` coercion that is
`NaN` or not finite fails `INVALID_PERCENT`; a finite coercion outside
`[1, 100]` fails `PERCENT_OUT_OF_RANGE`; otherwise `Math.round` of the
coercion is returned. -/
def validateCompressionPercent (percent : JSValue) : Except AppError ℤ :=
  if percent = JSValue.undef ∨ percent = JSValue.null then
    .error (AppError.make "Compression percent is required" 400
      (some "PERCENT_REQUIRED"))
  else
    match toNumber percent with
    | .fin num =>
      if num < 1 ∨ num > 100 then
        .error (AppError.make "Compression percent must be between 1 and 100"
          400 (some "PERCENT_OUT_OF_RANGE"))
      else .ok (mathRound num)
    | _ =>
      .error (AppError.make "Compression percent must be a valid number" 400
        (some "INVALID_PERCENT"))

/-- `createConversionPipeline(inputPath, format)` (convertController.js
lines 129–173): the switch covers the supported formats and throws
`UNSUPPORTED_FORMAT` on anything else; the pipeline object itself is opaque
here, only the selected format matters. -/
def createConversionPipeline (format : String) : Except AppError String :=
  if format ∈ SUPPORTED_FORMATS then .ok format
  else
    .error (AppError.make ("Unsupported format: " ++ format) 400
      (some "UNSUPPORTED_FORMAT"))

/-- `metadata.format || "jpeg"` / `metadata.format || "png"`: JS `||` with a
string default (empty string is falsy). -/
def jsOrDefault (v : Option String) (d : String) : String :=
  match v with
  | some s => if s = "" then d else s
  | none => d

/-- `createCompressionPipeline(inputPath, format, percent)` (compress
controller lines 119–174): the switch additionally accepts `gif` and throws
`UNSUPPORTED_FORMAT` on any other format; the quality selection is opaque
stream configuration. -/
def createCompressionPipeline (format : String) (_percent : ℤ) :
    Except AppError String :=
  if format ∈ SUPPORTED_FORMATS ∨ format = "gif" then .ok format
  else
    .error (AppError.make ("Unsupported format for compression: " ++ format)
      400 (some "UNSUPPORTED_FORMAT"))

/-! ## Single-item pipeline

After a single-file handler has attached its stream and event handlers, the
request reaches exactly one terminal event; the registered handlers
(`pipeline.on("error")`, `res.on("finish"/"close"/"error")`) are translated
below and applied on that event. -/

/-- Terminal event of a single-file streaming response. -/
inductive SingleEnd where
  | streamed
  /-- the codec reported an error before any byte was written -/
  | codecErrorEarly
  /-- the codec reported an error after streaming began -/
  | codecErrorLate
  /-- the client closed the connection -/
  | disconnected
deriving Repr, DecidableEq

/-- The response once piping has delivered bytes (headers committed,
Express default status 200). -/
def Response.committed (res : Response) : Response :=
  { res with headersSent := true, statusCode := some 200 }

/-- Result of running one handler: the staging area after all cleanup hooks
ran, and either the response or the rethrown `AppError`. -/
structure HandlerResult where
  fs : List String
  outcome : Except AppError Response
deriving Repr, DecidableEq

/-- The terminal phase shared by the three single-file handlers once
validation passed and the pipeline was piped into the response: every
terminal event fires the idempotent `cleanup` (registered on `finish`,
`close` and `error`), and a codec error answers through the pipeline error
handler with the handler's message and code. -/
def singleTerminal (filePath : String) (errorMsg errorCode : String)
    (se : SingleEnd) (fs : List String) (res : Response) : HandlerResult :=
  let fs1 := (safeDelete fs filePath).1
  match se with
  | .streamed => { fs := fs1, outcome := .ok { res.committed with ended := true } }
  | .codecErrorEarly =>
    { fs := fs1, outcome := .ok (pipelineErrorResponse errorMsg errorCode res) }
  | .codecErrorLate =>
    { fs := fs1,
      outcome := .ok (pipelineErrorResponse errorMsg errorCode res.committed) }
  | .disconnected => { fs := fs1, outcome := .ok { res with ended := true } }

namespace Convert

/-- `handleSingleFile(file, format, res)` (convertController.js lines
178–236): validate file type, format and metadata in that order, set the
download headers, create the conversion pipeline and pipe it; any throw in
the try block runs `cleanup` and rethrows, and every terminal stream event
also runs `cleanup`. -/
def handleSingleFile (file : UploadedFile) (format : String)
    (probe : MetaOutcome) (se : SingleEnd) (fs : List String)
    (res : Response) : HandlerResult :=
  let attempt : Except AppError Unit := do
    let _ ← validateFileType file
    let _ ← validateFormat (JSValue.str format)
    let _ ← validateImageMetadata probe
    let _ ← createConversionPipeline format
    pure ()
  match attempt with
  | .error e => { fs := (safeDelete fs file.path).1, outcome := .error e }
  | .ok _ =>
    singleTerminal file.path "Image conversion failed" "CONVERSION_ERROR" se fs res

end Convert

namespace Resize

/-- `handleSingleFile(file, width, height, res)` (resizeController.js lines
115–172): validate file type, the requested dimensions and the metadata in
that order, set the download headers and pipe the resize pipeline (whose
construction cannot throw); cleanup as in the convert handler. -/
def handleSingleFile (file : UploadedFile) (width height : Option JSNum)
    (probe : MetaOutcome) (se : SingleEnd) (fs : List String)
    (res : Response) : HandlerResult :=
  let attempt : Except AppError Unit := do
    let _ ← validateFileType file
    let _ ← validateDimensions width height
    let _ ← validateImageMetadata probe
    pure ()
  match attempt with
  | .error e => { fs := (safeDelete fs file.path).1, outcome := .error e }
  | .ok _ =>
    singleTerminal file.path "Image processing failed" "PROCESSING_ERROR" se fs res

end Resize

namespace Compress

/-- `handleSingleFile(file, percent, res)` (compress controller lines
179–242): validate file type and metadata, keep the original format
(`metadata.format || "jpeg"`), set the download headers and create the
compression pipeline (which throws `UNSUPPORTED_FORMAT` on a format its
switch does not cover); cleanup as in the convert handler. -/
def handleSingleFile (file : UploadedFile) (percent : ℤ)
    (probe : MetaOutcome) (se : SingleEnd) (fs : List String)
    (res : Response) : HandlerResult :=
  let attempt : Except AppError Unit := do
    let _ ← validateFileType file
    let metadata ← validateImageMetadata probe
    let outputFormat := jsOrDefault metadata.format "jpeg"
    let _ ← createCompressionPipeline outputFormat percent
    pure ()
  match attempt with
  | .error e => { fs := (safeDelete fs file.path).1, outcome := .error e }
  | .ok _ =>
    singleTerminal file.path "Image compression failed" "COMPRESSION_ERROR" se fs res

end Compress

/-! ## Multi-item pipeline

The three `handleMultipleFiles` implementations (convertController.js lines
241–356, resizeController.js lines 177–301, compress controller lines
247–371) are textually identical except for the per-file try block
(validation and pipeline construction) and the literals; the shared loop and
event machinery is defined once and instantiated per operation.

The dispatch loop is run first; the per-entry stream hooks
(`passthrough.on("end"/"error")`) and the archive-level handlers
(`archive.on("end")`, `res.on("close")`, `archive.on("error")`) fire
asynchronously, so the terminal descriptor records which per-entry hooks had
fired before the archive-level handler swept the remaining set. -/

/-- State of one batch: the staging area, the `filesToCleanup` set, the
processed counter, the skip list, and the paths appended to the archive. -/
structure BatchState where
  fs : List String
  pending : List String
  processedCount : ℕ
  errors : List SkipEntry
  appended : List String
deriving Repr, DecidableEq

/-- One iteration of the dispatch loop: a successful try block appends the
entry and bumps the counter; a throw records the skip reason, deletes the
staged path at once and removes it from `filesToCleanup`. -/
def dispatchStep (validate : ℕ → UploadedFile → Except AppError Unit)
    (st : BatchState) (entry : ℕ × UploadedFile) : BatchState :=
  match validate entry.1 entry.2 with
  | .ok _ =>
    { st with
      processedCount := st.processedCount + 1
      appended := st.appended ++ [entry.2.path] }
  | .error e =>
    { st with
      errors := st.errors ++ [{ file := entry.2.originalname, error := e.message }]
      fs := (safeDelete st.fs entry.2.path).1
      pending := st.pending.filter (fun q => q ≠ entry.2.path) }

/-- The dispatch loop over all files of the batch. -/
def runDispatch (validate : ℕ → UploadedFile → Except AppError Unit)
    (files : List UploadedFile) : BatchState :=
  files.enum.foldl (dispatchStep validate)
    { fs := files.map (fun f => f.path)
      pending := files.map (fun f => f.path)
      processedCount := 0
      errors := []
      appended := [] }

/-- A per-entry stream hook (`passthrough.on("end")`/`("error")`): delete the
staged path and drop it from `filesToCleanup`. -/
def streamHookDelete (st : BatchState) (p : String) : BatchState :=
  { st with
    fs := (safeDelete st.fs p).1
    pending := st.pending.filter (fun q => q ≠ p) }

/-- Apply the per-entry stream hooks that fired. -/
def applyStreamHooks (st : BatchState) (fired : List String) : BatchState :=
  fired.foldl streamHookDelete st

/-- `cleanup()` of the multi handlers: sweep everything remaining in
`filesToCleanup` and clear the set. -/
def sweepPending (st : BatchState) : BatchState :=
  { st with fs := deleteAll st.fs st.pending, pending := [] }

/-- Terminal event of a batch response (after the dispatch loop, when at
least one entry was appended). -/
inductive BatchEnd where
  /-- `archive.finalize()` succeeded: every entry stream concluded (its hook
  deleting its path), then `archive.on("end")` swept the rest -/
  | completed
  /-- the client closed before `archiveFinalized` was set: the listed entry
  hooks had fired, then `res.on("close")` destroyed the archive and swept -/
  | disconnected (fired : List String)
  /-- the archive emitted an error: the listed entry hooks had fired, then
  `archive.on("error")` swept (its rethrow is lost in the event callback) -/
  | archiveFailed (fired : List String)
deriving Repr, DecidableEq

/-- Result of one multi-file handler run. -/
structure MultiOutcome where
  fs : List String
  thrown : Option AppError
  headersSent : Bool
  archiveFinalized : Bool
  archiveDestroyed : Bool
  skipped : List SkipEntry
  processedCount : ℕ
deriving Repr, DecidableEq

/-- The shared body of `handleMultipleFiles`: run the dispatch loop; with
zero processed files destroy the archive, sweep, and throw
`NO_FILES_PROCESSED` (built with the four-argument `AppError` call carrying
the skip list) — the outer catch sweeps again and rethrows; otherwise set
`archiveFinalized`, finalize, and let the terminal event's handlers delete
the remaining paths.  Headers carry bytes once at least one entry was
appended to the piped archive, and never before. -/
def runMultiple (validate : ℕ → UploadedFile → Except AppError Unit)
    (files : List UploadedFile) (be : BatchEnd) : MultiOutcome :=
  let st := runDispatch validate files
  if st.processedCount = 0 then
    let st1 := sweepPending (sweepPending st)
    { fs := st1.fs
      thrown := some (AppError.make4 "No files could be processed" 400
        (some "NO_FILES_PROCESSED") st.errors)
      headersSent := false
      archiveFinalized := false
      archiveDestroyed := true
      skipped := st.errors
      processedCount := 0 }
  else
    match be with
    | .completed =>
      let st1 := sweepPending (applyStreamHooks st st.appended)
      { fs := st1.fs, thrown := none, headersSent := true
        archiveFinalized := true, archiveDestroyed := false
        skipped := st.errors, processedCount := st.processedCount }
    | .disconnected fired =>
      let st1 := sweepPending (applyStreamHooks st fired)
      { fs := st1.fs, thrown := none, headersSent := true
        archiveFinalized := false, archiveDestroyed := true
        skipped := st.errors, processedCount := st.processedCount }
    | .archiveFailed fired =>
      let st1 := sweepPending (applyStreamHooks st fired)
      { fs := st1.fs, thrown := none, headersSent := true
        archiveFinalized := false, archiveDestroyed := false
        skipped := st.errors, processedCount := st.processedCount }

/-! ## Controllers -/

/-- The fields of an incoming request the controllers read. -/
structure Request where
  files : List UploadedFile
  format : JSValue
  widths : Option (List String)
  heights : Option (List String)
  quality : JSValue
deriving Repr, DecidableEq

/-- Result of one full request. -/
structure RequestOutcome where
  fs : List String
  response : Response
  caught : Option AppError
  archiveFinalized : Bool
  archiveDestroyed : Bool
  skipped : List SkipEntry
deriving Repr, DecidableEq

/-- The catch block shared by the three controllers: delete every staged
file of the request, then answer through `errorResponse` (JSON error only
when headers are still open, else just end). -/
def controllerCatch (files : List UploadedFile) (fs : List String)
    (e : AppError) (res : Response) : RequestOutcome :=
  { fs := deleteAll fs (files.map (fun f => f.path))
    response := errorResponse (.app e) res
    caught := some e
    archiveFinalized := false
    archiveDestroyed := false
    skipped := [] }

/-- Assemble the outcome of a multi-file handler run under the controller:
a thrown error goes through the catch block (which deletes the staged files
once more), a normal return answers with the zip stream. -/
def controllerMultiOutcome (files : List UploadedFile) (o : MultiOutcome) :
    RequestOutcome :=
  match o.thrown with
  | some e =>
    let caught := controllerCatch files o.fs e
      { Response.initial with headersSent := o.headersSent }
    { caught with
      archiveFinalized := o.archiveFinalized
      archiveDestroyed := o.archiveDestroyed
      skipped := o.skipped }
  | none =>
    { fs := o.fs
      response :=
        { headersSent := o.headersSent
          statusCode := if o.headersSent then some 200 else none
          jsonBody := none
          ended := true }
      caught := none
      archiveFinalized := o.archiveFinalized
      archiveDestroyed := o.archiveDestroyed
      skipped := o.skipped }

/-- Assemble the outcome of a single-file handler run under the controller. -/
def controllerSingleOutcome (files : List UploadedFile) (r : HandlerResult) :
    RequestOutcome :=
  match r.outcome with
  | .error e => controllerCatch files r.fs e Response.initial
  | .ok res =>
    { fs := r.fs, response := res, caught := none
      archiveFinalized := false, archiveDestroyed := false, skipped := [] }

namespace Convert

/-- The per-file try block of `handleMultipleFiles` (convertController.js
lines 289–318): validate the file type, probe the metadata, build the
conversion pipeline, then append the passthrough to the archive. -/
def multiValidate (format : String) (meta : String → MetaOutcome)
    (_i : ℕ) (file : UploadedFile) : Except AppError Unit := do
  let _ ← validateFileType file
  let _ ← validateImageMetadata (meta file.path)
  let _ ← createConversionPipeline format
  pure ()

/-- `convertController` (convertController.js lines 362–406): reject an
empty upload set, validate the `format` field once at entry, then route on
the file count; the catch block deletes every staged file and answers
through `errorResponse`. -/
def controller (req : Request) (meta : String → MetaOutcome)
    (se : SingleEnd) (be : BatchEnd) : RequestOutcome :=
  let files := req.files
  let fs0 := files.map (fun f => f.path)
  if files.length = 0 then
    controllerCatch files fs0
      (AppError.make "No image files provided" 400 (some "FILES_NOT_FOUND"))
      Response.initial
  else
    match validateFormat req.format with
    | .error e => controllerCatch files fs0 e Response.initial
    | .ok format =>
      if files.length = 1 then
        match files with
        | file :: _ =>
          controllerSingleOutcome files
            (handleSingleFile file format (meta file.path) se fs0
              Response.initial)
        | [] =>
          controllerSingleOutcome files { fs := fs0, outcome := .ok Response.initial }
      else
        controllerMultiOutcome files (runMultiple (multiValidate format meta) files be)

end Convert

/-- `req.body.widths ? req.body.widths.map((w) => (w ? Number(w) : null)) : []`
(resizeController.js lines 315–320, same for heights): an absent field maps
to `[]`, and each falsy (empty) entry to `null`. -/
def mapDims (field : Option (List String)) : List (Option JSNum) :=
  match field with
  | none => []
  | some ws => ws.map (fun w => if w = "" then none else some (jsNumberOfString w))

/-- `dims[i] || null`: out-of-range indexing yields `undefined`, and a falsy
entry (`null`, `0`, `NaN`) collapses to `null`. -/
def dimAt (dims : List (Option JSNum)) (i : ℕ) : Option JSNum :=
  match (dims.get? i).getD none with
  | some n => if n.truthy then some n else none
  | none => none

namespace Resize

/-- The per-file try block of `handleMultipleFiles` (resizeController.js
lines 229–263): validate the file type, the positional dimensions pair and
the metadata, then append the resize passthrough. -/
def multiValidate (widths heights : List (Option JSNum))
    (meta : String → MetaOutcome) (i : ℕ) (file : UploadedFile) :
    Except AppError Unit := do
  let _ ← validateFileType file
  let _ ← validateDimensions (dimAt widths i) (dimAt heights i)
  let _ ← validateImageMetadata (meta file.path)
  pure ()

/-- `resizeController` (resizeController.js lines 307–374): reject an empty
upload set, map the `widths`/`heights` fields, check the array lengths
against the file count — but only when more than one file was uploaded —
and route on the file count; the catch block deletes every staged file and
answers through `errorResponse`. -/
def controller (req : Request) (meta : String → MetaOutcome)
    (se : SingleEnd) (be : BatchEnd) : RequestOutcome :=
  let files := req.files
  let fs0 := files.map (fun f => f.path)
  if files.length = 0 then
    controllerCatch files fs0
      (AppError.make "No image files provided" 400 (some "FILES_NOT_FOUND"))
      Response.initial
  else
    let widths := mapDims req.widths
    let heights := mapDims req.heights
    if files.length > 1 ∧ widths.length > 0 ∧ widths.length ≠ files.length then
      controllerCatch files fs0
        (AppError.make "Widths array length must match number of files" 400
          (some "DIMENSION_MISMATCH"))
        Response.initial
    else if files.length > 1 ∧ heights.length > 0 ∧
        heights.length ≠ files.length then
      controllerCatch files fs0
        (AppError.make "Heights array length must match number of files" 400
          (some "DIMENSION_MISMATCH"))
        Response.initial
    else if files.length = 1 then
      match files with
      | file :: _ =>
        controllerSingleOutcome files
          (handleSingleFile file (dimAt widths 0) (dimAt heights 0)
            (meta file.path) se fs0 Response.initial)
      | [] =>
        controllerSingleOutcome files { fs := fs0, outcome := .ok Response.initial }
    else
      controllerMultiOutcome files
        (runMultiple (multiValidate widths heights meta) files be)

end Resize

namespace Compress

/-- The per-file try block of `handleMultipleFiles` (compress controller
lines 297–333): validate the file type and metadata, keep the original
format, and build the compression pipeline. -/
def multiValidate (percent : ℤ) (meta : String → MetaOutcome)
    (_i : ℕ) (file : UploadedFile) : Except AppError Unit := do
  let _ ← validateFileType file
  let metadata ← validateImageMetadata (meta file.path)
  let outputFormat := jsOrDefault metadata.format "jpeg"
  let _ ← createCompressionPipeline outputFormat percent
  pure ()

/-- `compressController` (compress controller lines 381–424): reject an
empty upload set, validate the `quality` field once at entry, then route on
the file count; the catch block deletes every staged file and answers
through `errorResponse`. -/
def controller (req : Request) (meta : String → MetaOutcome)
    (se : SingleEnd) (be : BatchEnd) : RequestOutcome :=
  let files := req.files
  let fs0 := files.map (fun f => f.path)
  if files.length = 0 then
    controllerCatch files fs0
      (AppError.make "No image files provided" 400 (some "FILES_NOT_FOUND"))
      Response.initial
  else
    match validateCompressionPercent req.quality with
    | .error e => controllerCatch files fs0 e Response.initial
    | .ok percent =>
      if files.length = 1 then
        match files with
        | file :: _ =>
          controllerSingleOutcome files
            (handleSingleFile file percent (meta file.path) se fs0
              Response.initial)
        | [] =>
          controllerSingleOutcome files { fs := fs0, outcome := .ok Response.initial }
      else
        controllerMultiOutcome files
          (runMultiple (multiValidate percent meta) files be)

end Compress

/-- The three endpoints whose controllers are embedded here. -/
inductive Endpoint where
  | convert
  | resize
  | compress
deriving Repr, DecidableEq

/-- One full request against one of the three endpoints, under a metadata
oracle and a terminal-event descriptor. -/
def runRequest (ep : Endpoint) (req : Request) (meta : String → MetaOutcome)
    (se : SingleEnd) (be : BatchEnd) : RequestOutcome :=
  match ep with
  | .convert => Convert.controller req meta se be
  | .resize => Resize.controller req meta se be
  | .compress => Compress.controller req meta se be

/-! ## Internal failure events against a response

For claim C2 the internal errors that can occur once a request is under way
are gathered into one event type; each constructor's effect on the response
is the translated source handler. -/

/-- An internal error occurring while a request is under way. -/
inductive InternalFailure where
  /-- the codec pipeline emitted an error (per-operation message and code) -/
  | pipelineFailure (msg code : String)
  /-- the archiver emitted an error -/
  | archiveFailure
  /-- an exception reached the controller catch block -/
  | caught (err : CaughtError)
deriving Repr, DecidableEq

/-- Apply the source handler registered for an internal failure to the
response. -/
def applyInternalFailure : InternalFailure → Response → Response
  | .pipelineFailure msg code, res => pipelineErrorResponse msg code res
  | .archiveFailure, res => archiveErrorResponse res
  | .caught err, res => errorResponse err res

/-! ## Specification-level predicates -/

/-- Every staged path still on disk is covered by the pending set and is
non-blank. -/
def GoodFs (fs pending : List String) : Prop :=
  (∀ x ∈ fs, x ∈ pending) ∧ (∀ x ∈ fs, ¬jsTrim x = "")

/-- The batch-state form of the cleanup invariant. -/
def GoodState (st : BatchState) : Prop := GoodFs st.fs st.pending

/-- The value is a positive integer (in the sense of the validation spec). -/
def IsPosInt (v : Option JSNum) : Prop :=
  ∃ n : ℤ, 0 < n ∧ v = some (JSNum.fin (n : ℚ))

/-- The value is an integer above the output ceiling. -/
def ExceedsMax (v : Option JSNum) : Prop :=
  ∃ n : ℤ, (MAX_OUTPUT_DIMENSION : ℤ) < n ∧ v = some (JSNum.fin (n : ℚ))

/-! ## Concrete fixtures used by the closed theorems -/

/-- A staged text file (invalid type for every operation). -/
def sampleTxt : UploadedFile :=
  { originalname := "a.txt", path := "/uploads/a1", mimetype := some "text/plain" }

/-- A second staged text file. -/
def sampleTxt2 : UploadedFile :=
  { originalname := "b.txt", path := "/uploads/b1", mimetype := some "text/plain" }

/-- A staged PNG image. -/
def samplePng : UploadedFile :=
  { originalname := "a.png", path := "/uploads/p1", mimetype := some "image/png" }

/-- A second staged PNG image. -/
def samplePng2 : UploadedFile :=
  { originalname := "b.png", path := "/uploads/p2", mimetype := some "image/png" }

/-- A metadata oracle answering a well-formed 500×400 PNG for every path. -/
def sampleMeta : String → MetaOutcome :=
  fun _ => .ok { width := some 500, height := some 400, format := some "png" }

/-- A metadata oracle whose probe always throws. -/
def sampleMetaThrows : String → MetaOutcome := fun _ => .throws

/-- A single-file convert request with the given file and `format` field. -/
def singleConvertRequest (file : UploadedFile) (fv : JSValue) : Request :=
  { files := [file], format := fv, widths := none, heights := none,
    quality := .undef }

/-- A resize request with the given files and `widths`/`heights` fields. -/
def resizeRequest (files : List UploadedFile)
    (widths heights : Option (List String)) : Request :=
  { files := files, format := .undef, widths := widths, heights := heights,
    quality := .undef }

/-! ## Deletion lemmas -/

/-- Effect of `safeDelete` on the staging area: a blank path is refused,
any other path is removed (deleting an absent path is a no-op). -/
theorem safeDelete_fst (fs : List String) (p : String) :
    (safeDelete fs p).1 =
      if jsTrim p = "" then fs else fs.filter (fun q => q ≠ p) := by
  unfold safeDelete unlink
  by_cases h : jsTrim p = ""
  · simp [h]
  · by_cases hp : p ∈ fs
    · simp [h, hp]
    · simp only [h, hp, if_neg, if_false, if_true, reduceIte]
      have hfix : fs.filter (fun q => decide (q ≠ p)) = fs :=
        List.filter_eq_self.mpr (fun a ha => by
          simp only [decide_eq_true_eq]
          rintro rfl
          exact hp ha)
      exact hfix.symm

/-- Membership after a bulk delete: a path survives `deleteAll` exactly when
it was present and is not a deletable (non-blank) member of the deletion
list. -/
theorem mem_deleteAll (l : List String) (fs : List String) (x : String) :
    x ∈ deleteAll fs l ↔ x ∈ fs ∧ (x ∈ l → jsTrim x = "") := by
  induction l generalizing fs with
  | nil => simp [deleteAll]
  | cons p l ih =>
    have hstep : deleteAll fs (p :: l) = deleteAll (safeDelete fs p).1 l := rfl
    rw [hstep, ih, safeDelete_fst]
    by_cases hp : jsTrim p = ""
    · simp only [hp, if_pos, reduceIte]
      constructor
      · rintro ⟨hfs, hl⟩
        refine ⟨hfs, ?_⟩
        intro hmem
        rcases List.mem_cons.mp hmem with rfl | hmem2
        · exact hp
        · exact hl hmem2
      · rintro ⟨hfs, hl⟩
        exact ⟨hfs, fun hm => hl (List.mem_cons_of_mem _ hm)⟩
    · simp only [hp, if_neg, reduceIte, List.mem_filter, decide_eq_true_eq]
      constructor
      · rintro ⟨⟨hfs, hne⟩, hl⟩
        refine ⟨hfs, ?_⟩
        intro hmem
        rcases List.mem_cons.mp hmem with rfl | hmem2
        · exact absurd rfl hne
        · exact hl hmem2
      · rintro ⟨hfs, hl⟩
        have hne : x ≠ p := by
          rintro rfl
          exact hp (hl (List.mem_cons_self _ _))
        exact ⟨⟨hfs, hne⟩, fun hm => hl (List.mem_cons_of_mem _ hm)⟩

/-- Deleting a superset of the staging area empties it, provided the staged
paths are non-blank. -/
theorem deleteAll_covers (fs l : List String)
    (hsub : ∀ x ∈ fs, x ∈ l) (htrim : ∀ x ∈ fs, ¬jsTrim x = "") :
    deleteAll fs l = [] := by
  rw [List.eq_nil_iff_forall_not_mem]
  intro x hx
  rw [mem_deleteAll] at hx
  exact htrim x hx.1 (hx.2 (hsub x hx.1))

/-! ## The cleanup invariant of the batch state

Throughout a batch, every staged path still on disk is in the
`filesToCleanup` set (and is non-blank), so any sweep of the set empties the
staging area. -/

/-- Deleting one path from the staging area and from the pending set
preserves the invariant. -/
theorem goodFs_delete (fs pending : List String) (p : String)
    (h : GoodFs fs pending) :
    GoodFs (safeDelete fs p).1 (pending.filter (fun q => q ≠ p)) := by
  rcases h with ⟨hsub, htrim⟩
  rw [safeDelete_fst]
  by_cases hp : jsTrim p = ""
  · refine ⟨?_, by simpa [hp] using htrim⟩
    simp only [hp, reduceIte]
    intro x hx
    rw [List.mem_filter]
    refine ⟨hsub x hx, ?_⟩
    simp only [decide_eq_true_eq]
    rintro rfl
    exact htrim x hx hp
  · constructor
    · intro x hx
      simp only [hp, reduceIte, List.mem_filter, decide_eq_true_eq] at hx ⊢
      exact ⟨hsub x hx.1, hx.2⟩
    · intro x hx
      simp only [hp, reduceIte, List.mem_filter] at hx
      exact htrim x hx.1
  
/-- A sweep of the pending set under the invariant empties the staging
area. -/
theorem goodFs_sweep (fs pending : List String) (h : GoodFs fs pending) :
    deleteAll fs pending = [] :=
  deleteAll_covers fs pending h.1 h.2

/-- `deleteAll` of an empty staging area stays empty. -/
theorem deleteAll_nil (l : List String) : deleteAll [] l = [] := by
  rw [List.eq_nil_iff_forall_not_mem]
  intro x hx
  rw [mem_deleteAll] at hx
  exact absurd hx.1 (List.not_mem_nil x)

/-- Folding a step function that preserves a predicate preserves it. -/
theorem foldl_preserve {α β : Type} (P : β → Prop) (f : β → α → β)
    (hf : ∀ st a, P st → P (f st a)) (l : List α) (st : β) (h : P st) :
    P (l.foldl f st) := by
  induction l generalizing st with
  | nil => exact h
  | cons a l ih => exact ih (f st a) (hf st a h)

/-- Each dispatch-loop iteration preserves the cleanup invariant. -/
theorem goodState_dispatchStep
    (validate : ℕ → UploadedFile → Except AppError Unit)
    (st : BatchState) (entry : ℕ × UploadedFile) (h : GoodState st) :
    GoodState (dispatchStep validate st entry) := by
  unfold dispatchStep
  rcases hv : validate entry.1 entry.2 with e | u
  · exact goodFs_delete st.fs st.pending entry.2.path h
  · exact h

/-- A per-entry stream hook preserves the cleanup invariant. -/
theorem goodState_streamHook (st : BatchState) (p : String)
    (h : GoodState st) : GoodState (streamHookDelete st p) :=
  goodFs_delete st.fs st.pending p h

/-- The invariant holds after the dispatch loop, provided the staged paths
were non-blank. -/
theorem goodState_runDispatch
    (validate : ℕ → UploadedFile → Except AppError Unit)
    (files : List UploadedFile)
    (hpaths : ∀ f ∈ files, ¬jsTrim f.path = "") :
    GoodState (runDispatch validate files) := by
  unfold runDispatch
  refine foldl_preserve GoodState (dispatchStep validate)
    (goodState_dispatchStep validate) files.enum _ ?_
  constructor
  · intro x hx; exact hx
  · intro x hx
    rcases List.mem_map.mp hx with ⟨f, hf, rfl⟩
    exact hpaths f hf

/-- The invariant survives any set of fired stream hooks. -/
theorem goodState_applyStreamHooks (st : BatchState) (fired : List String)
    (h : GoodState st) : GoodState (applyStreamHooks st fired) :=
  foldl_preserve GoodState streamHookDelete goodState_streamHook fired st h

/-- Under the invariant, `sweepPending` empties the staging area. -/
theorem sweepPending_fs (st : BatchState) (h : GoodState st) :
    (sweepPending st).fs = [] :=
  goodFs_sweep st.fs st.pending h

/-- Every terminal path of a multi-file handler leaves no staged file. -/
theorem runMultiple_fs (validate : ℕ → UploadedFile → Except AppError Unit)
    (files : List UploadedFile) (be : BatchEnd)
    (hpaths : ∀ f ∈ files, ¬jsTrim f.path = "") :
    (runMultiple validate files be).fs = [] := by
  unfold runMultiple
  have hst := goodState_runDispatch validate files hpaths
  set st := runDispatch validate files with hdef
  by_cases hz : st.processedCount = 0
  · simp only [hz, reduceIte]
    have h1 : (sweepPending st).fs = [] := sweepPending_fs st hst
    have h2 : GoodState (sweepPending st) := by
      refine ⟨?_, ?_⟩ <;>
        (intro x hx; rw [h1] at hx; exact absurd hx (List.not_mem_nil x))
    exact sweepPending_fs (sweepPending st) h2
  · simp only [hz, reduceIte]
    cases be with
    | completed =>
      exact sweepPending_fs _ (goodState_applyStreamHooks st st.appended hst)
    | disconnected fired =>
      exact sweepPending_fs _ (goodState_applyStreamHooks st fired hst)
    | archiveFailed fired =>
      exact sweepPending_fs _ (goodState_applyStreamHooks st fired hst)

/-- Terminal events of a single-file handler always delete the staged
path. -/
theorem singleTerminal_fs (filePath errorMsg errorCode : String)
    (se : SingleEnd) (fs : List String) (res : Response) :
    (singleTerminal filePath errorMsg errorCode se fs res).fs =
      (safeDelete fs filePath).1 := by
  cases se <;> rfl

/-- The convert single-file handler always deletes the staged path. -/
theorem convert_handleSingleFile_fs (file : UploadedFile) (format : String)
    (probe : MetaOutcome) (se : SingleEnd) (fs : List String)
    (res : Response) :
    (Convert.handleSingleFile file format probe se fs res).fs =
      (safeDelete fs file.path).1 := by
  unfold Convert.handleSingleFile
  dsimp only
  split
  · rfl
  · exact singleTerminal_fs file.path _ _ se fs res

/-- The resize single-file handler always deletes the staged path. -/
theorem resize_handleSingleFile_fs (file : UploadedFile)
    (width height : Option JSNum) (probe : MetaOutcome) (se : SingleEnd)
    (fs : List String) (res : Response) :
    (Resize.handleSingleFile file width height probe se fs res).fs =
      (safeDelete fs file.path).1 := by
  unfold Resize.handleSingleFile
  dsimp only
  split
  · rfl
  · exact singleTerminal_fs file.path _ _ se fs res

/-- The compress single-file handler always deletes the staged path. -/
theorem compress_handleSingleFile_fs (file : UploadedFile) (percent : ℤ)
    (probe : MetaOutcome) (se : SingleEnd) (fs : List String)
    (res : Response) :
    (Compress.handleSingleFile file percent probe se fs res).fs =
      (safeDelete fs file.path).1 := by
  unfold Compress.handleSingleFile
  dsimp only
  split
  · rfl
  · exact singleTerminal_fs file.path _ _ se fs res

/-- The controllers' catch block leaves no staged file when the staging area
consists of the request's own (non-blank) paths. -/
theorem controllerCatch_fs (files : List UploadedFile) (fs : List String)
    (e : AppError) (res : Response)
    (hsub : ∀ x ∈ fs, x ∈ files.map (fun f => f.path))
    (htrim : ∀ x ∈ fs, ¬jsTrim x = "") :
    (controllerCatch files fs e res).fs = [] := by
  show deleteAll fs (files.map (fun f => f.path)) = []
  exact deleteAll_covers fs (files.map (fun f => f.path)) hsub htrim

/-- A single-file handler outcome with an empty staging area yields an empty
staging area whatever the controller does with it. -/
theorem controllerSingleOutcome_fs (files : List UploadedFile)
    (r : HandlerResult) (h : r.fs = []) :
    (controllerSingleOutcome files r).fs = [] := by
  unfold controllerSingleOutcome
  split
  · show deleteAll r.fs (files.map (fun f => f.path)) = []
    rw [h]
    exact deleteAll_nil _
  · exact h

/-- A multi-file handler outcome with an empty staging area yields an empty
staging area whatever the controller does with it. -/
theorem controllerMultiOutcome_fs (files : List UploadedFile)
    (o : MultiOutcome) (h : o.fs = []) :
    (controllerMultiOutcome files o).fs = [] := by
  unfold controllerMultiOutcome
  split
  · show deleteAll o.fs (files.map (fun f => f.path)) = []
    rw [h]
    exact deleteAll_nil _
  · exact h

/-- The non-blank-path hypothesis transferred to the mapped path list. -/
theorem mapPath_trim (files : List UploadedFile)
    (hpaths : ∀ f ∈ files, ¬jsTrim f.path = "") :
    ∀ x ∈ files.map (fun f => f.path), ¬jsTrim x = "" := by
  intro x hx
  rcases List.mem_map.mp hx with ⟨f, hf, rfl⟩
  exact hpaths f hf

/-- For a one-element request, the staged area after deleting the file's own
path is empty. -/
theorem singleton_safeDelete_fs (file : UploadedFile)
    (htrim : ¬jsTrim file.path = "") :
    (safeDelete [file.path] file.path).1 = [] := by
  rw [safeDelete_fst]
  simp [htrim]

/-- No exit path of the convert controller leaves a staged file. -/
theorem convert_controller_fs (req : Request) (meta : String → MetaOutcome)
    (se : SingleEnd) (be : BatchEnd)
    (hpaths : ∀ f ∈ req.files, ¬jsTrim f.path = "") :
    (Convert.controller req meta se be).fs = [] := by
  unfold Convert.controller
  dsimp only
  split
  · exact controllerCatch_fs _ _ _ _ (fun x hx => hx)
      (mapPath_trim req.files hpaths)
  · split
    · exact controllerCatch_fs _ _ _ _ (fun x hx => hx)
        (mapPath_trim req.files hpaths)
    · next format hfmt =>
      split
      · next h1 =>
        split
        · next file tail heq =>
          have htail : tail = [] := by
            rw [heq] at h1
            simpa using h1
          subst htail
          have hmem : file ∈ req.files := by rw [heq]; exact List.mem_cons_self _ _
          apply controllerSingleOutcome_fs
          rw [convert_handleSingleFile_fs, heq]
          simpa using singleton_safeDelete_fs file (hpaths file hmem)
        · next heq =>
          rw [heq] at h1
          simp at h1
      · next h1 =>
        apply controllerMultiOutcome_fs
        exact runMultiple_fs _ req.files be hpaths

/-- No exit path of the resize controller leaves a staged file. -/
theorem resize_controller_fs (req : Request) (meta : String → MetaOutcome)
    (se : SingleEnd) (be : BatchEnd)
    (hpaths : ∀ f ∈ req.files, ¬jsTrim f.path = "") :
    (Resize.controller req meta se be).fs = [] := by
  unfold Resize.controller
  dsimp only
  split
  · exact controllerCatch_fs _ _ _ _ (fun x hx => hx)
      (mapPath_trim req.files hpaths)
  · split
    · exact controllerCatch_fs _ _ _ _ (fun x hx => hx)
        (mapPath_trim req.files hpaths)
    · split
      · exact controllerCatch_fs _ _ _ _ (fun x hx => hx)
          (mapPath_trim req.files hpaths)
      · split
        · next h1 =>
          split
          · next file tail heq =>
            have htail : tail = [] := by
              rw [heq] at h1
              simpa using h1
            subst htail
            have hmem : file ∈ req.files := by
              rw [heq]; exact List.mem_cons_self _ _
            apply controllerSingleOutcome_fs
            rw [resize_handleSingleFile_fs, heq]
            simpa using singleton_safeDelete_fs file (hpaths file hmem)
          · next heq =>
            rw [heq] at h1
            simp at h1
        · next h1 =>
          apply controllerMultiOutcome_fs
          exact runMultiple_fs _ req.files be hpaths

/-- No exit path of the compress controller leaves a staged file. -/
theorem compress_controller_fs (req : Request) (meta : String → MetaOutcome)
    (se : SingleEnd) (be : BatchEnd)
    (hpaths : ∀ f ∈ req.files, ¬jsTrim f.path = "") :
    (Compress.controller req meta se be).fs = [] := by
  unfold Compress.controller
  dsimp only
  split
  · exact controllerCatch_fs _ _ _ _ (fun x hx => hx)
      (mapPath_trim req.files hpaths)
  · split
    · exact controllerCatch_fs _ _ _ _ (fun x hx => hx)
        (mapPath_trim req.files hpaths)
    · next percent hpct =>
      split
      · next h1 =>
        split
        · next file tail heq =>
          have htail : tail = [] := by
            rw [heq] at h1
            simpa using h1
          subst htail
          have hmem : file ∈ req.files := by rw [heq]; exact List.mem_cons_self _ _
          apply controllerSingleOutcome_fs
          rw [compress_handleSingleFile_fs, heq]
          simpa using singleton_safeDelete_fs file (hpaths file hmem)
        · next heq =>
          rw [heq] at h1
          simp at h1
      · next h1 =>
        apply controllerMultiOutcome_fs
        exact runMultiple_fs _ req.files be hpaths

/-- Claim C1 (cleanup totality): for every request to the convert, resize or
compress endpoint — whatever the metadata oracle and whichever terminal
event the request reaches (validation failure, codec failure, archive
failure, success, client disconnect) — every staged path of the request has
been deleted by the time the request is terminal.  The staged paths are
assumed non-blank, as produced by the multer storage layer. -/
theorem cleanup_totality (ep : Endpoint) (req : Request)
    (meta : String → MetaOutcome) (se : SingleEnd) (be : BatchEnd)
    (hpaths : ∀ f ∈ req.files, ¬jsTrim f.path = "") :
    (runRequest ep req meta se be).fs = [] := by
  cases ep with
  | convert => exact convert_controller_fs req meta se be hpaths
  | resize => exact resize_controller_fs req meta se be hpaths
  | compress => exact compress_controller_fs req meta se be hpaths

/-- Witness for C1: a concrete two-file convert request, streamed to
completion, ends with an empty staging area. -/
theorem cleanup_totality_witness :
    (runRequest .convert
      { files := [samplePng, samplePng2], format := .str "png",
        widths := none, heights := none, quality := .undef }
      sampleMeta .streamed .completed).fs = [] := by
  apply cleanup_totality
  intro f hf
  fin_cases hf <;> decide

/-- Claim C2 (header-commit exclusivity): once the response headers are
sent, no internal failure event — codec pipeline error, archive error, or an
exception reaching the controller catch — changes the status code or the
JSON body; the headers stay committed, and the only possible effect is that
the response stream is ended. -/
theorem header_commit_exclusive (ev : InternalFailure) (res : Response)
    (h : res.headersSent = true) :
    (applyInternalFailure ev res).statusCode = res.statusCode ∧
    (applyInternalFailure ev res).jsonBody = res.jsonBody ∧
    (applyInternalFailure ev res).headersSent = true ∧
    (applyInternalFailure ev res = res ∨
      applyInternalFailure ev res = { res with ended := true }) := by
  cases ev with
  | pipelineFailure msg code =>
    simp [applyInternalFailure, pipelineErrorResponse, h]
  | archiveFailure =>
    simp [applyInternalFailure, archiveErrorResponse, h]
  | caught err =>
    cases err <;> simp [applyInternalFailure, errorResponse, h]

/-- Witness for C2: a committed 200 response hit by a codec error keeps its
status and (absent) body; only the stream is ended. -/
theorem header_commit_exclusive_witness :
    (applyInternalFailure (.pipelineFailure "Image conversion failed" "CONVERSION_ERROR")
        { headersSent := true, statusCode := some 200, jsonBody := none,
          ended := false }).statusCode = some 200 ∧
    (applyInternalFailure (.pipelineFailure "Image conversion failed" "CONVERSION_ERROR")
        { headersSent := true, statusCode := some 200, jsonBody := none,
          ended := false }).jsonBody = none :=
  ⟨(header_commit_exclusive _ _ rfl).1,
    ((header_commit_exclusive _ _ rfl).2).1⟩

/-- Claim C9 (idempotent deletion): `safeDelete` is total (the JS function
catches every `unlink` error, so it never throws), deleting a nonexistent
non-blank path reports success — `ENOENT` is treated as success, not an
error — and deleting the same path twice returns normally: the second call
reports success again and leaves the staging area exactly where the first
call left it.  The resize controller's `safeDelete` likewise returns
normally (with no value) on a nonexistent path. -/
theorem safeDelete_not_mem (fs : List String) (p : String)
    (hp : ¬jsTrim p = "") (hmem : p ∉ fs) : safeDelete fs p = (fs, true) := by
  unfold safeDelete unlink
  simp [hp, hmem]

/-- After one `safeDelete`, the path is gone from the staging area. -/
theorem safeDelete_not_mem_fst (fs : List String) (p : String)
    (hp : ¬jsTrim p = "") : p ∉ (safeDelete fs p).1 := by
  rw [safeDelete_fst]
  simp only [hp, reduceIte]
  intro hmem
  rcases List.mem_filter.mp hmem with ⟨_, hne⟩
  simp at hne

/-- Claim C9 (idempotent deletion): `safeDelete` is total (the JS function
catches every `unlink` error, so it never throws), deleting a nonexistent
non-blank path reports success — `ENOENT` is treated as success, not an
error — and deleting the same path twice returns normally: the second call
reports success again and leaves the staging area exactly where the first
call left it.  The resize controller's `safeDelete` likewise returns
normally (with no value) on a nonexistent path. -/
theorem safeDelete_idempotent (fs : List String) (p : String)
    (hp : ¬jsTrim p = "") :
    (p ∉ fs → safeDelete fs p = (fs, true)) ∧
    (safeDelete (safeDelete fs p).1 p).2 = true ∧
    (safeDelete (safeDelete fs p).1 p).1 = (safeDelete fs p).1 ∧
    (p ∉ fs → safeDeleteResize fs p = fs) := by
  have h2 : p ∉ (safeDelete fs p).1 := safeDelete_not_mem_fst fs p hp
  have h3 := safeDelete_not_mem (safeDelete fs p).1 p hp h2
  refine ⟨?_, ?_, ?_, ?_⟩
  · intro hmem
    exact safeDelete_not_mem fs p hp hmem
  · rw [h3]
  · rw [h3]
  · intro hmem
    unfold safeDeleteResize unlink
    by_cases he : p = "" <;> simp [he, hmem]

/-- Witness for C9: deleting a path absent from a concrete staging area
succeeds, and a double delete of a present path returns success twice while
removing the path once. -/
theorem safeDelete_idempotent_witness :
    safeDelete ["/uploads/p1"] "/uploads/a1" = (["/uploads/p1"], true) ∧
    (safeDelete (safeDelete ["/uploads/p1"] "/uploads/p1").1 "/uploads/p1").2
      = true := by
  constructor
  · exact (safeDelete_idempotent ["/uploads/p1"] "/uploads/a1" (by decide)).1
      (by decide)
  · exact ((safeDelete_idempotent ["/uploads/p1"] "/uploads/p1"
      (by decide)).2).1

/-- Claim C3 (all-failure rejection with detail), evaluated at the failing
input: a two-file convert request in which both files have an invalid type.
The archive is destroyed and never finalized and the request fails with
status 400; the skip reasons (file name and reason) are recorded internally
and the thrown error's kind is `NO_FILES_PROCESSED` — but the JSON response
body is only `{ error: "No files could be processed" }`: the `code` and
`details` keys are absent, because `AppError` stores the kind under `type`
while the controller reads `err.code`, and the constructor ignores the
fourth (`{ errors }`) argument the controller passes. -/
theorem no_files_processed_detail_lost :
    (runRequest .convert
      { files := [sampleTxt, sampleTxt2], format := .str "png",
        widths := none, heights := none, quality := .undef }
      sampleMetaThrows .streamed .completed).archiveDestroyed = true ∧
    (runRequest .convert
      { files := [sampleTxt, sampleTxt2], format := .str "png",
        widths := none, heights := none, quality := .undef }
      sampleMetaThrows .streamed .completed).archiveFinalized = false ∧
    (runRequest .convert
      { files := [sampleTxt, sampleTxt2], format := .str "png",
        widths := none, heights := none, quality := .undef }
      sampleMetaThrows .streamed .completed).response.statusCode = some 400 ∧
    ((runRequest .convert
      { files := [sampleTxt, sampleTxt2], format := .str "png",
        widths := none, heights := none, quality := .undef }
      sampleMetaThrows .streamed .completed).caught.map
        (fun e => e.type)) = some (some "NO_FILES_PROCESSED") ∧
    (runRequest .convert
      { files := [sampleTxt, sampleTxt2], format := .str "png",
        widths := none, heights := none, quality := .undef }
      sampleMetaThrows .streamed .completed).skipped =
      [{ file := "a.txt",
         error := "Invalid file type. Allowed formats: jpeg, jpg, png, webp, gif, tiff, avif" },
       { file := "b.txt",
         error := "Invalid file type. Allowed formats: jpeg, jpg, png, webp, gif, tiff, avif" }] ∧
    (runRequest .convert
      { files := [sampleTxt, sampleTxt2], format := .str "png",
        widths := none, heights := none, quality := .undef }
      sampleMetaThrows .streamed .completed).response.jsonBody =
      some { error := "No files could be processed", code := none,
             details := none } := by
  decide

/-- Claim C4 (error response shape), evaluated at a failing input: a convert
request with no uploaded files is rejected with the operational
`FILES_NOT_FOUND` error before any byte is sent, and the HTTP status equals
the error's status (400) — but the JSON body carries only the `error`
string: the `code` key the claim requires is absent (`err.code` is an
undefined property read on `AppError`, which stores the kind under `type`,
and `JSON.stringify` drops undefined values). -/
theorem app_error_body_lacks_code :
    ((runRequest .convert
      { files := [], format := .str "png", widths := none, heights := none,
        quality := .undef }
      sampleMetaThrows .streamed .completed).caught.map
        (fun e => e.type)) = some (some "FILES_NOT_FOUND") ∧
    ((runRequest .convert
      { files := [], format := .str "png", widths := none, heights := none,
        quality := .undef }
      sampleMetaThrows .streamed .completed).caught.map
        (fun e => e.statusCode)) = some 400 ∧
    (runRequest .convert
      { files := [], format := .str "png", widths := none, heights := none,
        quality := .undef }
      sampleMetaThrows .streamed .completed).response.statusCode = some 400 ∧
    (runRequest .convert
      { files := [], format := .str "png", widths := none, heights := none,
        quality := .undef }
      sampleMetaThrows .streamed .completed).response.jsonBody =
      some { error := "No image files provided", code := none,
             details := none } := by
  decide

/-- Bind on a failed `Except` short-circuits. -/
theorem except_error_bind {e1 a b : Type} (e : e1) (f : a → Except e1 b) :
    (Except.error e >>= f) = Except.error e := rfl

/-- Bind on a successful `Except` continues. -/
theorem except_ok_bind {e1 a b : Type} (x : a) (f : a → Except e1 b) :
    (Except.ok x >>= f) = f x := rfl

/-- Counterexample to claim C7 as stated: a single-file convert request
whose file has an invalid type (`a.txt`, `text/plain`) and whose `format`
field is also invalid (`bmp`) is rejected with the format error, not the
file-type error: `convertController` validates the `format` field at entry,
before `handleSingleFile` ever checks the file type. -/
theorem convert_order_counterexample :
    ((runRequest .convert (singleConvertRequest sampleTxt (.str "bmp"))
      sampleMetaThrows .streamed .completed).caught.map (fun e => e.type))
      = some (some "INVALID_FORMAT") ∧
    ((runRequest .convert (singleConvertRequest sampleTxt (.str "bmp"))
      sampleMetaThrows .streamed .completed).caught.map (fun e => e.type))
      ≠ some (some "INVALID_FILE_TYPE") := by
  decide

/-- Claim C7 as amended: in the convert pipeline the `format` parameter is
validated first, at controller entry; the file-type check runs next, inside
the single-file handler; the metadata probe runs last.  A request failing
the format check is rejected with that error whatever the file; a request
passing the format check but failing the file-type check is rejected with
the file-type error; and whenever either cheap check fails, the metadata
probe is never consulted — the outcome is identical under any two metadata
oracles. -/
theorem convert_single_validation_order (file : UploadedFile) (fv : JSValue)
    (meta meta2 : String → MetaOutcome) (se : SingleEnd) (be : BatchEnd) :
    (∀ e, validateFormat fv = .error e →
      (runRequest .convert (singleConvertRequest file fv) meta se be).caught
        = some e) ∧
    (∀ s e, validateFormat fv = .ok s → validateFileType file = .error e →
      (runRequest .convert (singleConvertRequest file fv) meta se be).caught
        = some e) ∧
    (((∃ e, validateFormat fv = .error e) ∨
        (∃ e, validateFileType file = .error e)) →
      runRequest .convert (singleConvertRequest file fv) meta se be =
        runRequest .convert (singleConvertRequest file fv) meta2 se be) := by
  refine ⟨?_, ?_, ?_⟩
  · intro e he
    simp [runRequest, Convert.controller, singleConvertRequest, he,
      controllerCatch, errorResponse]
  · intro s e hs he
    simp [runRequest, Convert.controller, singleConvertRequest, hs,
      Convert.handleSingleFile, he, except_error_bind, controllerSingleOutcome,
      controllerCatch]
  · rintro (⟨e, he⟩ | ⟨e, he⟩)
    · simp [runRequest, Convert.controller, singleConvertRequest, he]
    · rcases hv : validateFormat fv with e2 | s
      · simp [runRequest, Convert.controller, singleConvertRequest, hv]
      · simp [runRequest, Convert.controller, singleConvertRequest, hv,
          Convert.handleSingleFile, he, except_error_bind]

/-- Witness for the amended C7: at the concrete counterexample input the
format error is the one caught, and the outcome is the same under the
throwing oracle and the well-formed oracle. -/
theorem convert_single_validation_order_witness :
    (runRequest .convert (singleConvertRequest sampleTxt (.str "bmp"))
      sampleMetaThrows .streamed .completed).caught =
      some (AppError.make
        "Invalid format. Supported: jpg, jpeg, png, webp, tiff, avif" 400
        (some "INVALID_FORMAT")) ∧
    runRequest .convert (singleConvertRequest sampleTxt (.str "bmp"))
        sampleMetaThrows .streamed .completed =
      runRequest .convert (singleConvertRequest sampleTxt (.str "bmp"))
        sampleMeta .streamed .completed := by
  constructor
  · exact (convert_single_validation_order sampleTxt (.str "bmp")
      sampleMetaThrows sampleMeta .streamed .completed).1
      (AppError.make
        "Invalid format. Supported: jpg, jpeg, png, webp, tiff, avif" 400
        (some "INVALID_FORMAT")) (by decide)
  · exact ((convert_single_validation_order sampleTxt (.str "bmp")
      sampleMetaThrows sampleMeta .streamed .completed).2).2
      (Or.inl ⟨AppError.make
        "Invalid format. Supported: jpg, jpeg, png, webp, tiff, avif" 400
        (some "INVALID_FORMAT"), by decide⟩)

/-- Counterexample to claim C8 as stated: a single-file resize request with
a widths array of length 2 (which differs from the file count 1) is not
rejected — the length check of `resizeController` runs only when more than
one file was uploaded, so the request proceeds and succeeds with 200. -/
theorem resize_mismatch_counterexample :
    (runRequest .resize (resizeRequest [samplePng] (some ["100", "200"]) none)
      sampleMeta .streamed .completed).caught = none ∧
    (runRequest .resize (resizeRequest [samplePng] (some ["100", "200"]) none)
      sampleMeta .streamed .completed).response.statusCode = some 200 := by
  decide

/-- Claim C8 as amended: for every resize request with more than one file,
if the widths (or heights) form array is non-empty and its length differs
from the number of files, the whole batch fails with HTTP 400 and an error
of kind `DIMENSION_MISMATCH`, before any file is validated, probed or
transformed (the outcome is identical under any two metadata oracles), and
every staged file is deleted. -/
theorem resize_mismatch_rejects_batch (req : Request)
    (meta meta2 : String → MetaOutcome) (se : SingleEnd) (be : BatchEnd)
    (hn : 1 < req.files.length)
    (hpaths : ∀ f ∈ req.files, ¬jsTrim f.path = "")
    (hmm : ((mapDims req.widths).length ≠ 0 ∧
        (mapDims req.widths).length ≠ req.files.length) ∨
      ((mapDims req.heights).length ≠ 0 ∧
        (mapDims req.heights).length ≠ req.files.length)) :
    (∃ e, (runRequest .resize req meta se be).caught = some e ∧
      e.statusCode = 400 ∧ e.type = some "DIMENSION_MISMATCH") ∧
    (runRequest .resize req meta se be).response.statusCode = some 400 ∧
    (runRequest .resize req meta se be).fs = [] ∧
    runRequest .resize req meta se be = runRequest .resize req meta2 se be := by
  have h0 : ¬(req.files.length = 0) := by omega
  show (∃ e, (Resize.controller req meta se be).caught = some e ∧
      e.statusCode = 400 ∧ e.type = some "DIMENSION_MISMATCH") ∧
    (Resize.controller req meta se be).response.statusCode = some 400 ∧
    (Resize.controller req meta se be).fs = [] ∧
    Resize.controller req meta se be = Resize.controller req meta2 se be
  unfold Resize.controller
  dsimp only
  by_cases c1 : req.files.length > 1 ∧ 0 < (mapDims req.widths).length ∧
      (mapDims req.widths).length ≠ req.files.length
  · simp only [if_neg h0, if_pos c1]
    refine ⟨⟨AppError.make "Widths array length must match number of files"
      400 (some "DIMENSION_MISMATCH"), rfl, rfl, rfl⟩, rfl, ?_, trivial⟩
    exact controllerCatch_fs _ _ _ _ (fun x hx => hx)
      (mapPath_trim req.files hpaths)
  · have c2 : req.files.length > 1 ∧ 0 < (mapDims req.heights).length ∧
        (mapDims req.heights).length ≠ req.files.length := by
      rcases hmm with ⟨hw1, hw2⟩ | ⟨hh1, hh2⟩
      · exact absurd ⟨hn, Nat.pos_of_ne_zero hw1, hw2⟩ c1
      · exact ⟨hn, Nat.pos_of_ne_zero hh1, hh2⟩
    simp only [if_neg h0, if_neg c1, if_pos c2]
    refine ⟨⟨AppError.make "Heights array length must match number of files"
      400 (some "DIMENSION_MISMATCH"), rfl, rfl, rfl⟩, rfl, ?_, trivial⟩
    exact controllerCatch_fs _ _ _ _ (fun x hx => hx)
      (mapPath_trim req.files hpaths)

/-- Witness for the amended C8: a two-file resize request with a three-entry
widths array is rejected with `DIMENSION_MISMATCH`, status 400, no staged
file left, independently of the metadata oracle. -/
theorem resize_mismatch_rejects_batch_witness :
    (∃ e, (runRequest .resize
        (resizeRequest [samplePng, samplePng2] (some ["100", "200", "300"])
          none)
        sampleMeta .streamed .completed).caught = some e ∧
      e.statusCode = 400 ∧ e.type = some "DIMENSION_MISMATCH") ∧
    (runRequest .resize
      (resizeRequest [samplePng, samplePng2] (some ["100", "200", "300"])
        none)
      sampleMeta .streamed .completed).fs = [] := by
  have h := resize_mismatch_rejects_batch
    (resizeRequest [samplePng, samplePng2] (some ["100", "200", "300"]) none)
    sampleMeta sampleMetaThrows .streamed .completed
    (by decide)
    (by intro f hf; fin_cases hf <;> decide)
    (Or.inl (by constructor <;> decide))
  exact ⟨h.1, (h.2).2.1⟩

/-- Claim C10 (zero treated as absent): a `widths` (or `heights`) form entry
`"0"` is truthy as a string, coerces to the number `0`, and is then
collapsed to `null` by the `dims[i] || null` pairing, so the file's
validation sees an absent dimension; an absent width can never produce
`INVALID_WIDTH` (nor an absent height `INVALID_HEIGHT`), and when the paired
other dimension is also absent the check fails with `DIMENSION_REQUIRED`. -/
theorem resize_zero_dimension_absent (ws : List String) (i : ℕ)
    (hi : ws.get? i = some "0") :
    dimAt (mapDims (some ws)) i = none ∧
    (∀ hv, errKind (validateDimensions none hv) ≠ some "INVALID_WIDTH") ∧
    (∀ wv, errKind (validateDimensions wv none) ≠ some "INVALID_HEIGHT") ∧
    errKind (validateDimensions none none) = some "DIMENSION_REQUIRED" := by
  refine ⟨?_, ?_, ?_, by decide⟩
  · have h1 : (mapDims (some ws)).get? i =
        some (if ("0" : String) = "" then none
          else some (jsNumberOfString "0")) := by
      unfold mapDims
      rw [List.get?_map, hi]
      rfl
    have h2 : (if ("0" : String) = "" then none
        else some (jsNumberOfString "0")) = some (JSNum.fin 0) := by decide
    unfold dimAt
    rw [h1, h2]
    decide
  · intro hv
    unfold validateDimensions
    split
    · decide
    · split
      · next hcond =>
        exact absurd hcond.1 (by decide)
      · split
        · decide
        · split
          · decide
          · decide
  · intro wv
    unfold validateDimensions
    split
    · decide
    · split
      · decide
      · split
        · next hcond =>
          exact absurd hcond.1 (by decide)
        · split
          · decide
          · decide

/-- Witness for C10: the one-entry widths array `["0"]` pairs file 0 with an
absent width, and with no height given the validation fails with
`DIMENSION_REQUIRED`. -/
theorem resize_zero_dimension_absent_witness :
    dimAt (mapDims (some ["0"])) 0 = none ∧
    errKind (validateDimensions none none) = some "DIMENSION_REQUIRED" := by
  have h := resize_zero_dimension_absent ["0"] 0 (by decide)
  exact ⟨h.1, (h.2).2.2⟩

/-- Claim C5 (`validateCompressionPercent` correctness): the check fails
with `PERCENT_REQUIRED` exactly when the value is absent (`undefined` or
`null`); with `INVALID_PERCENT` exactly when the value is present but its
`Number(...)` coercion is not a finite number; with `PERCENT_OUT_OF_RANGE`
exactly when the coercion is finite but outside `[1, 100]`; and otherwise
returns `Math.round` of the coercion, which is the value rounded to a
nearest integer (within one half). -/
theorem validateCompressionPercent_spec (v : JSValue) :
    (errKind (validateCompressionPercent v) = some "PERCENT_REQUIRED" ↔
      v = JSValue.undef ∨ v = JSValue.null) ∧
    (errKind (validateCompressionPercent v) = some "INVALID_PERCENT" ↔
      ¬(v = JSValue.undef ∨ v = JSValue.null) ∧
        ∀ q : ℚ, toNumber v ≠ .fin q) ∧
    (errKind (validateCompressionPercent v) = some "PERCENT_OUT_OF_RANGE" ↔
      ¬(v = JSValue.undef ∨ v = JSValue.null) ∧
        ∃ q : ℚ, toNumber v = .fin q ∧ (q < 1 ∨ q > 100)) ∧
    (∀ q : ℚ, ¬(v = JSValue.undef ∨ v = JSValue.null) → toNumber v = .fin q →
      1 ≤ q → q ≤ 100 →
      validateCompressionPercent v = .ok (mathRound q) ∧
        |(mathRound q : ℚ) - q| ≤ 1/2) := by
  by_cases hab : v = JSValue.undef ∨ v = JSValue.null
  · have hval : validateCompressionPercent v =
        .error (AppError.make "Compression percent is required" 400
          (some "PERCENT_REQUIRED")) := by
      unfold validateCompressionPercent
      rw [if_pos hab]
    refine ⟨?_, ?_, ?_, ?_⟩
    · constructor
      · intro _; exact hab
      · intro _; rw [hval]; decide
    · constructor
      · intro h; rw [hval] at h; exact absurd h (by decide)
      · rintro ⟨hn, _⟩; exact absurd hab hn
    · constructor
      · intro h; rw [hval] at h; exact absurd h (by decide)
      · rintro ⟨hn, _⟩; exact absurd hab hn
    · intro q hn; exact absurd hab hn
  · rcases ht : toNumber v with _ | _ | _ | q
    case neg.nan =>
      have hval : validateCompressionPercent v =
          .error (AppError.make "Compression percent must be a valid number"
            400 (some "INVALID_PERCENT")) := by
        unfold validateCompressionPercent
        rw [if_neg hab, ht]
      refine ⟨?_, ?_, ?_, ?_⟩
      · constructor
        · intro h; rw [hval] at h; exact absurd h (by decide)
        · intro h; exact absurd h hab
      · constructor
        · intro _
          exact ⟨hab, fun q hq => JSNum.noConfusion hq⟩
        · intro _; rw [hval]; decide
      · constructor
        · intro h; rw [hval] at h; exact absurd h (by decide)
        · rintro ⟨_, q, hq, _⟩; exact JSNum.noConfusion hq
      · intro q _ hq; exact absurd hq (fun h => JSNum.noConfusion h)
    case neg.posInf =>
      have hval : validateCompressionPercent v =
          .error (AppError.make "Compression percent must be a valid number"
            400 (some "INVALID_PERCENT")) := by
        unfold validateCompressionPercent
        rw [if_neg hab, ht]
      refine ⟨?_, ?_, ?_, ?_⟩
      · constructor
        · intro h; rw [hval] at h; exact absurd h (by decide)
        · intro h; exact absurd h hab
      · constructor
        · intro _
          exact ⟨hab, fun q hq => JSNum.noConfusion hq⟩
        · intro _; rw [hval]; decide
      · constructor
        · intro h; rw [hval] at h; exact absurd h (by decide)
        · rintro ⟨_, q, hq, _⟩; exact JSNum.noConfusion hq
      · intro q _ hq; exact absurd hq (fun h => JSNum.noConfusion h)
    case neg.negInf =>
      have hval : validateCompressionPercent v =
          .error (AppError.make "Compression percent must be a valid number"
            400 (some "INVALID_PERCENT")) := by
        unfold validateCompressionPercent
        rw [if_neg hab, ht]
      refine ⟨?_, ?_, ?_, ?_⟩
      · constructor
        · intro h; rw [hval] at h; exact absurd h (by decide)
        · intro h; exact absurd h hab
      · constructor
        · intro _
          exact ⟨hab, fun q hq => JSNum.noConfusion hq⟩
        · intro _; rw [hval]; decide
      · constructor
        · intro h; rw [hval] at h; exact absurd h (by decide)
        · rintro ⟨_, q, hq, _⟩; exact JSNum.noConfusion hq
      · intro q _ hq; exact absurd hq (fun h => JSNum.noConfusion h)
    case neg.fin =>
      have hval : validateCompressionPercent v =
          (if q < 1 ∨ q > 100 then
            .error (AppError.make
              "Compression percent must be between 1 and 100" 400
              (some "PERCENT_OUT_OF_RANGE"))
          else .ok (mathRound q)) := by
        unfold validateCompressionPercent
        rw [if_neg hab, ht]
      by_cases hr : q < 1 ∨ q > 100
      · rw [if_pos hr] at hval
        refine ⟨?_, ?_, ?_, ?_⟩
        · constructor
          · intro h; rw [hval] at h; exact absurd h (by decide)
          · intro h; exact absurd h hab
        · constructor
          · intro h; rw [hval] at h; exact absurd h (by decide)
          · rintro ⟨_, hall⟩; exact absurd rfl (hall q)
        · constructor
          · intro _; exact ⟨hab, q, rfl, hr⟩
          · intro _; rw [hval]; decide
        · intro q2 _ hq2 h1 h100
          have hqq : q = q2 := by injection hq2
          subst hqq
          rcases hr with hr | hr
          · exact absurd h1 (by linarith)
          · exact absurd h100 (by linarith)
      · rw [if_neg hr] at hval
        push_neg at hr
        refine ⟨?_, ?_, ?_, ?_⟩
        · constructor
          · intro h; rw [hval] at h; exact Option.noConfusion h
          · intro h; exact absurd h hab
        · constructor
          · intro h; rw [hval] at h; exact Option.noConfusion h
          · rintro ⟨_, hall⟩; exact absurd rfl (hall q)
        · constructor
          · intro h; rw [hval] at h; exact Option.noConfusion h
          · rintro ⟨_, q2, hq2, hr2⟩
            have hqq : q = q2 := by injection hq2
            subst hqq
            rcases hr2 with hr2 | hr2
            · exact absurd hr2 (by linarith [hr.1])
            · exact absurd hr2 (by linarith [hr.2])
        · intro q2 _ hq2 _ _
          have hqq : q = q2 := by injection hq2
          subst hqq
          refine ⟨hval, ?_⟩
          unfold mathRound
          rw [abs_le]
          constructor
          · have h2 := Int.lt_floor_add_one (q + 1/2)
            linarith
          · have h2 := Int.floor_le (q + 1/2)
            linarith

/-- Witness for C5: the string `"41.6"` coerces to the finite number 208/5,
is in range, and is rounded to 42. -/
theorem validateCompressionPercent_spec_witness :
    validateCompressionPercent (JSValue.str "41.6") = .ok 42 := by
  have h := ((validateCompressionPercent_spec (JSValue.str "41.6")).2.2.2
    (mkRat 416 10) (by decide) (by decide) (by decide) (by decide)).1
  rw [h]
  congr 1
  have hq : (mkRat 416 10 : ℚ) = 208/5 := by
    rw [Rat.mkRat_eq_div]; norm_num
  unfold mathRound
  rw [hq, Int.floor_eq_iff]
  norm_num

/-- For a truthy value, the code point `Number.isInteger(v) && !(v <= 0)` is
exactly "the value is a positive integer". -/
theorem posInt_char (v : Option JSNum) (hv : jsTruthy v = true) :
    (jsIsInteger v = true ∧ jsLeOpt v 0 = false) ↔ IsPosInt v := by
  cases v with
  | none => exact absurd hv (by decide)
  | some n =>
    cases n with
    | nan => exact absurd hv (by decide)
    | posInf =>
      constructor
      · rintro ⟨hi, _⟩; exact absurd hi (by decide)
      · rintro ⟨m, hm, heq⟩; simp at heq
    | negInf =>
      constructor
      · rintro ⟨hi, _⟩; exact absurd hi (by decide)
      · rintro ⟨m, hm, heq⟩; simp at heq
    | fin q =>
      constructor
      · rintro ⟨hi, hl⟩
        have hden : q.den = 1 := by
          simpa [jsIsInteger, JSNum.isIntegerB] using hi
        have hpos : ¬(q ≤ 0) := by
          simpa [jsLeOpt, JSNum.leB] using hl
        refine ⟨q.num, ?_, ?_⟩
        · exact Rat.num_pos.mpr (lt_of_not_le hpos)
        · rw [(Rat.den_eq_one_iff q).mp hden]
      · rintro ⟨m, hm, heq⟩
        have hqm : q = (m : ℚ) := by
          have := Option.some.inj heq
          injection this
        subst hqm
        constructor
        · simp [jsIsInteger, JSNum.isIntegerB, Rat.den_intCast]
        · simp only [jsLeOpt, JSNum.leB, decide_eq_false_iff_not, not_le]
          exact_mod_cast hm

/-- For a positive-integer value, the code point `v > MAX_OUTPUT_DIMENSION`
is exactly "the integer exceeds the output ceiling". -/
theorem exceeds_char (v : Option JSNum) (h : IsPosInt v) :
    jsGtOpt v (MAX_OUTPUT_DIMENSION : ℚ) = true ↔ ExceedsMax v := by
  rcases h with ⟨m, hm, rfl⟩
  constructor
  · intro hgt
    have hlt : ((MAX_OUTPUT_DIMENSION : ℕ) : ℚ) < (m : ℚ) := by
      simpa [jsGtOpt, JSNum.gtB] using hgt
    exact ⟨m, by exact_mod_cast hlt, rfl⟩
  · rintro ⟨n, hn, heq⟩
    have hmn : (m : ℚ) = (n : ℚ) := by
      have := Option.some.inj heq
      injection this
    have hmn2 : m = n := by exact_mod_cast hmn
    subst hmn2
    simp only [jsGtOpt, JSNum.gtB, decide_eq_true_eq]
    exact_mod_cast hn

/-- The `INVALID_WIDTH`/`INVALID_HEIGHT` branch condition, in
specification terms. -/
theorem invalid_cond_iff (v : Option JSNum) :
    (jsTruthy v = true ∧ (jsIsInteger v = false ∨ jsLeOpt v 0 = true)) ↔
      (jsTruthy v = true ∧ ¬IsPosInt v) := by
  constructor
  · rintro ⟨hv, hd⟩
    refine ⟨hv, ?_⟩
    rw [← posInt_char v hv]
    rintro ⟨hi, hl⟩
    rcases hd with hd | hd
    · rw [hi] at hd; exact Bool.noConfusion hd
    · rw [hl] at hd; exact Bool.noConfusion hd
  · rintro ⟨hv, hn⟩
    refine ⟨hv, ?_⟩
    rw [← posInt_char v hv] at hn
    rcases Bool.eq_false_or_eq_true (jsIsInteger v) with hi | hi
    · rcases Bool.eq_false_or_eq_true (jsLeOpt v 0) with hl | hl
      · exact Or.inr hl
      · exact absurd ⟨hi, hl⟩ hn
    · exact Or.inl hi

/-- The `DIMENSION_TOO_LARGE` branch condition, in specification terms,
once both truthy dimensions are known to be positive integers. -/
theorem toolarge_cond_iff (w h : Option JSNum)
    (hwp : jsTruthy w = true → IsPosInt w)
    (hhp : jsTruthy h = true → IsPosInt h) :
    ((jsTruthy w = true ∧ jsGtOpt w (MAX_OUTPUT_DIMENSION : ℚ) = true) ∨
      (jsTruthy h = true ∧ jsGtOpt h (MAX_OUTPUT_DIMENSION : ℚ) = true)) ↔
    ((jsTruthy w = true ∧ ExceedsMax w) ∨
      (jsTruthy h = true ∧ ExceedsMax h)) := by
  constructor
  · rintro (⟨hv, hgt⟩ | ⟨hv, hgt⟩)
    · exact Or.inl ⟨hv, (exceeds_char w (hwp hv)).mp hgt⟩
    · exact Or.inr ⟨hv, (exceeds_char h (hhp hv)).mp hgt⟩
  · rintro (⟨hv, hex⟩ | ⟨hv, hex⟩)
    · exact Or.inl ⟨hv, (exceeds_char w (hwp hv)).mpr hex⟩
    · exact Or.inr ⟨hv, (exceeds_char h (hhp hv)).mpr hex⟩

/-- Counterexample to claim C6 as stated: a width of `0` is present but not
a positive integer, so the claim demands `INVALID_WIDTH` — yet with a valid
height the check passes (`0` is falsy and skips the width test entirely),
and with no height it fails with `DIMENSION_REQUIRED` even though the width
is not absent. -/
theorem validateDimensions_claim_counterexample :
    validateDimensions (some (JSNum.fin 0)) (some (JSNum.fin 50)) = .ok () ∧
    errKind (validateDimensions (some (JSNum.fin 0)) none) =
      some "DIMENSION_REQUIRED" := by
  decide

/-- Claim C6 as amended: `validateDimensions` treats every JS-falsy value
(`null`/`undefined`, `0`, `NaN`) as absent.  It fails with
`DIMENSION_REQUIRED` iff both values are falsy; with `INVALID_WIDTH`
(checked first) iff the width is truthy but not a positive integer; with
`INVALID_HEIGHT` iff the width check passed and the height is truthy but
not a positive integer; with `DIMENSION_TOO_LARGE` iff both truthy values
are positive integers and a truthy one exceeds the 10000 px output ceiling;
and returns normally otherwise. -/
theorem validateDimensions_spec (w h : Option JSNum) :
    (errKind (validateDimensions w h) = some "DIMENSION_REQUIRED" ↔
      jsTruthy w = false ∧ jsTruthy h = false) ∧
    (errKind (validateDimensions w h) = some "INVALID_WIDTH" ↔
      jsTruthy w = true ∧ ¬IsPosInt w) ∧
    (errKind (validateDimensions w h) = some "INVALID_HEIGHT" ↔
      ¬(jsTruthy w = true ∧ ¬IsPosInt w) ∧
        (jsTruthy h = true ∧ ¬IsPosInt h)) ∧
    (errKind (validateDimensions w h) = some "DIMENSION_TOO_LARGE" ↔
      (jsTruthy w = true → IsPosInt w) ∧ (jsTruthy h = true → IsPosInt h) ∧
      ((jsTruthy w = true ∧ ExceedsMax w) ∨
        (jsTruthy h = true ∧ ExceedsMax h))) ∧
    (validateDimensions w h = .ok () ↔
      (jsTruthy w = true ∨ jsTruthy h = true) ∧
      (jsTruthy w = true → IsPosInt w ∧ ¬ExceedsMax w) ∧
      (jsTruthy h = true → IsPosInt h ∧ ¬ExceedsMax h)) := by
  by_cases hc1 : jsTruthy w = false ∧ jsTruthy h = false
  · have hval : validateDimensions w h =
        .error (AppError.make "Width or height must be provided" 400
          (some "DIMENSION_REQUIRED")) := by
      unfold validateDimensions
      rw [if_pos hc1]
    refine ⟨?_, ?_, ?_, ?_, ?_⟩
    · constructor
      · intro _; exact hc1
      · intro _; rw [hval]; decide
    · constructor
      · intro hcontr; rw [hval] at hcontr; exact absurd hcontr (by decide)
      · rintro ⟨hW, _⟩; rw [hc1.1] at hW; exact Bool.noConfusion hW
    · constructor
      · intro hcontr; rw [hval] at hcontr; exact absurd hcontr (by decide)
      · rintro ⟨_, hH, _⟩; rw [hc1.2] at hH; exact Bool.noConfusion hH
    · constructor
      · intro hcontr; rw [hval] at hcontr; exact absurd hcontr (by decide)
      · rintro ⟨_, _, ⟨hW, _⟩ | ⟨hH, _⟩⟩
        · rw [hc1.1] at hW; exact Bool.noConfusion hW
        · rw [hc1.2] at hH; exact Bool.noConfusion hH
    · constructor
      · intro hcontr; rw [hval] at hcontr; exact Except.noConfusion hcontr
      · rintro ⟨hW | hH, _, _⟩
        · rw [hc1.1] at hW; exact Bool.noConfusion hW
        · rw [hc1.2] at hH; exact Bool.noConfusion hH
  · by_cases hc2 : jsTruthy w = true ∧ ¬IsPosInt w
    · have hval : validateDimensions w h =
          .error (AppError.make "Invalid width value" 400
            (some "INVALID_WIDTH")) := by
        unfold validateDimensions
        rw [if_neg hc1, if_pos ((invalid_cond_iff w).mpr hc2)]
      refine ⟨?_, ?_, ?_, ?_, ?_⟩
      · constructor
        · intro hcontr; rw [hval] at hcontr; exact absurd hcontr (by decide)
        · intro hf; exact absurd hf hc1
      · constructor
        · intro _; exact hc2
        · intro _; rw [hval]; decide
      · constructor
        · intro hcontr; rw [hval] at hcontr; exact absurd hcontr (by decide)
        · rintro ⟨hn, _⟩; exact absurd hc2 hn
      · constructor
        · intro hcontr; rw [hval] at hcontr; exact absurd hcontr (by decide)
        · rintro ⟨hwp, _, _⟩; exact (hc2.2 (hwp hc2.1)).elim
      · constructor
        · intro hcontr; rw [hval] at hcontr; exact Except.noConfusion hcontr
        · rintro ⟨_, hwp, _⟩; exact (hc2.2 (hwp hc2.1).1).elim
    · have hwp : jsTruthy w = true → IsPosInt w := fun hW =>
        not_not.mp (fun hn => hc2 ⟨hW, hn⟩)
      by_cases hc3 : jsTruthy h = true ∧ ¬IsPosInt h
      · have hval : validateDimensions w h =
            .error (AppError.make "Invalid height value" 400
              (some "INVALID_HEIGHT")) := by
          unfold validateDimensions
          rw [if_neg hc1, if_neg (fun hcond => hc2 ((invalid_cond_iff w).mp hcond)),
            if_pos ((invalid_cond_iff h).mpr hc3)]
        refine ⟨?_, ?_, ?_, ?_, ?_⟩
        · constructor
          · intro hcontr; rw [hval] at hcontr; exact absurd hcontr (by decide)
          · intro hf; exact absurd hf hc1
        · constructor
          · intro hcontr; rw [hval] at hcontr; exact absurd hcontr (by decide)
          · intro hf; exact absurd hf hc2
        · constructor
          · intro _; exact ⟨hc2, hc3⟩
          · intro _; rw [hval]; decide
        · constructor
          · intro hcontr; rw [hval] at hcontr; exact absurd hcontr (by decide)
          · rintro ⟨_, hhp, _⟩; exact (hc3.2 (hhp hc3.1)).elim
        · constructor
          · intro hcontr; rw [hval] at hcontr; exact Except.noConfusion hcontr
          · rintro ⟨_, _, hhp⟩; exact (hc3.2 (hhp hc3.1).1).elim
      · have hhp : jsTruthy h = true → IsPosInt h := fun hH =>
          not_not.mp (fun hn => hc3 ⟨hH, hn⟩)
        by_cases hc4 : (jsTruthy w = true ∧ ExceedsMax w) ∨
            (jsTruthy h = true ∧ ExceedsMax h)
        · have hval : validateDimensions w h =
              .error (AppError.make
                ("Maximum allowed dimension is " ++
                  Nat.repr MAX_OUTPUT_DIMENSION ++ "px") 400
                (some "DIMENSION_TOO_LARGE")) := by
            unfold validateDimensions
            rw [if_neg hc1,
              if_neg (fun hcond => hc2 ((invalid_cond_iff w).mp hcond)),
              if_neg (fun hcond => hc3 ((invalid_cond_iff h).mp hcond)),
              if_pos ((toolarge_cond_iff w h hwp hhp).mpr hc4)]
          refine ⟨?_, ?_, ?_, ?_, ?_⟩
          · constructor
            · intro hcontr; rw [hval] at hcontr; exact absurd hcontr (by decide)
            · intro hf; exact absurd hf hc1
          · constructor
            · intro hcontr; rw [hval] at hcontr; exact absurd hcontr (by decide)
            · intro hf; exact absurd hf hc2
          · constructor
            · intro hcontr; rw [hval] at hcontr; exact absurd hcontr (by decide)
            · rintro ⟨_, hf⟩; exact absurd hf hc3
          · constructor
            · intro _; exact ⟨hwp, hhp, hc4⟩
            · intro _; rw [hval]; decide
          · constructor
            · intro hcontr; rw [hval] at hcontr; exact Except.noConfusion hcontr
            · rintro ⟨_, hwno, hhno⟩
              rcases hc4 with ⟨hW, hex⟩ | ⟨hH, hex⟩
              · exact ((hwno hW).2 hex).elim
              · exact ((hhno hH).2 hex).elim
        · have hval : validateDimensions w h = .ok () := by
            unfold validateDimensions
            rw [if_neg hc1,
              if_neg (fun hcond => hc2 ((invalid_cond_iff w).mp hcond)),
              if_neg (fun hcond => hc3 ((invalid_cond_iff h).mp hcond)),
              if_neg (fun hcond => hc4 ((toolarge_cond_iff w h hwp hhp).mp hcond))]
          refine ⟨?_, ?_, ?_, ?_, ?_⟩
          · constructor
            · intro hcontr; rw [hval] at hcontr; exact Option.noConfusion hcontr
            · intro hf; exact absurd hf hc1
          · constructor
            · intro hcontr; rw [hval] at hcontr; exact Option.noConfusion hcontr
            · intro hf; exact absurd hf hc2
          · constructor
            · intro hcontr; rw [hval] at hcontr; exact Option.noConfusion hcontr
            · rintro ⟨_, hf⟩; exact absurd hf hc3
          · constructor
            · intro hcontr; rw [hval] at hcontr; exact Option.noConfusion hcontr
            · rintro ⟨_, _, hf⟩; exact absurd hf hc4
          · constructor
            · intro _
              refine ⟨?_, ?_, ?_⟩
              · rcases Bool.eq_false_or_eq_true (jsTruthy w) with hW | hW
                · exact Or.inl hW
                · rcases Bool.eq_false_or_eq_true (jsTruthy h) with hH | hH
                  · exact Or.inr hH
                  · exact absurd ⟨hW, hH⟩ hc1
              · intro hW
                refine ⟨hwp hW, fun hex => hc4 (Or.inl ⟨hW, hex⟩)⟩
              · intro hH
                refine ⟨hhp hH, fun hex => hc4 (Or.inr ⟨hH, hex⟩)⟩
            · intro _; exact hval

/-- Witness for the amended C6: a requested width of 20000 (a positive
integer above the 10000 px output ceiling) with no height fails with
`DIMENSION_TOO_LARGE`. -/
theorem validateDimensions_spec_witness :
    errKind (validateDimensions (some (JSNum.fin 20000)) none) =
      some "DIMENSION_TOO_LARGE" := by
  have hc : ((20000 : ℤ) : ℚ) = (20000 : ℚ) := by norm_num
  have hpi : IsPosInt (some (JSNum.fin 20000)) :=
    ⟨20000, by norm_num, by rw [hc]⟩
  have hex : ExceedsMax (some (JSNum.fin 20000)) :=
    ⟨20000, by norm_num [MAX_OUTPUT_DIMENSION], by rw [hc]⟩
  exact (validateDimensions_spec (some (JSNum.fin 20000)) none).2.2.2.1.mpr
    ⟨fun _ => hpi, fun hcontr => absurd hcontr (by decide),
      Or.inl ⟨by decide, hex⟩⟩
